import Mathlib

/-!
Verification of the analytics core of the sales-dashboard repository.

The development shallowly embeds the data model and the pure analytics
functions of the repository (src/types.ts, src/data/transforms.ts,
src/data/generator.ts, and the summary/CSV module of src/tabs) into Lean:

* string enums become inductive types;
* JavaScript numbers appearing as integers (timestamps in epoch
  milliseconds, counts) become Int or Nat; fractional values (rates,
  day durations, weights) become rationals, which model the exact real
  arithmetic the floating-point code approximates, and coincide with it
  at every claim checked here;
* ISO date strings are modelled by their epoch-millisecond values, since
  the code only ever consumes them through Date parsing and formatting,
  which is injective and monotone on the values the system produces;
* the stable Array.prototype.sort of JavaScript is modelled by a stable
  insertion sort;
* JavaScript Map and Set, used only through insertion-ordered grouping
  and membership, are modelled by lookup functions and ordered
  duplicate-free lists.
-/

namespace Dashboard

/-- Channel enum of src/types.ts. -/
inductive Channel
  | call
  | email
  | linkedin
deriving DecidableEq, Repr, Inhabited

/-- Outcome enum of src/types.ts. -/
inductive Outcome
  | no_answer
  | voicemail
  | connected
  | conversation
  | meeting_booked
  | meeting_held
  | no_show
  | qualified
deriving DecidableEq, Repr, Inhabited

/-- Objection enum of src/types.ts (the non-null values). -/
inductive Objection
  | budget
  | timing
  | authority
  | need
  | other
deriving DecidableEq, Repr, Inhabited

/-- OutreachEvent of src/types.ts. Timestamps are modelled by their epoch
millisecond values (the code reads them only through Date getTime). -/
structure OutreachEvent where
  event_id : String
  lead_id : String
  timestamp : Int
  week_start : Int
  sdr_id : String
  sdr_name : String
  team : String
  company : String
  industry : String
  channel : Channel
  outcome : Outcome
  objection : Option Objection
deriving DecidableEq, Repr

/-- The seven boolean flags a derived event adds beyond first-contact and
time-to-meeting attribution (src/data/transforms.ts, OUTCOME_FLAG_MAP rows). -/
structure OutcomeFlags where
  is_connected : Bool
  is_conversation : Bool
  is_meeting_booked : Bool
  is_meeting_held : Bool
  is_qualified : Bool
  is_no_show : Bool
  is_dial : Bool
deriving DecidableEq, Repr

/-- DerivedEvent of src/data/transforms.ts. The nullable float field
time_to_meeting_days is modelled as an optional rational. -/
structure DerivedEvent extends OutreachEvent where
  is_connected : Bool
  is_conversation : Bool
  is_meeting_booked : Bool
  is_meeting_held : Bool
  is_qualified : Bool
  is_no_show : Bool
  is_dial : Bool
  is_first_contact : Bool
  time_to_meeting_days : Option ℚ
deriving DecidableEq, Repr

/-- MS_PER_DAY constant of src/data/transforms.ts. -/
def MS_PER_DAY : ℚ := 1000 * 60 * 60 * 24

/-- OUTCOME_FLAG_MAP of src/data/transforms.ts, line by line. -/
def OUTCOME_FLAG_MAP : Outcome → OutcomeFlags
  | Outcome.no_answer =>
    { is_connected := false, is_conversation := false, is_meeting_booked := false
      is_meeting_held := false, is_qualified := false, is_no_show := false, is_dial := true }
  | Outcome.voicemail =>
    { is_connected := false, is_conversation := false, is_meeting_booked := false
      is_meeting_held := false, is_qualified := false, is_no_show := false, is_dial := true }
  | Outcome.connected =>
    { is_connected := true, is_conversation := false, is_meeting_booked := false
      is_meeting_held := false, is_qualified := false, is_no_show := false, is_dial := true }
  | Outcome.conversation =>
    { is_connected := true, is_conversation := true, is_meeting_booked := false
      is_meeting_held := false, is_qualified := false, is_no_show := false, is_dial := true }
  | Outcome.meeting_booked =>
    { is_connected := true, is_conversation := true, is_meeting_booked := true
      is_meeting_held := false, is_qualified := false, is_no_show := false, is_dial := true }
  | Outcome.meeting_held =>
    { is_connected := true, is_conversation := true, is_meeting_booked := true
      is_meeting_held := true, is_qualified := false, is_no_show := false, is_dial := true }
  | Outcome.no_show =>
    { is_connected := true, is_conversation := true, is_meeting_booked := true
      is_meeting_held := false, is_qualified := false, is_no_show := true, is_dial := true }
  | Outcome.qualified =>
    { is_connected := true, is_conversation := true, is_meeting_booked := true
      is_meeting_held := true, is_qualified := true, is_no_show := false, is_dial := true }

/-- deriveOutcomeFlags of src/data/transforms.ts: the flag-map row of the
outcome, with is_dial overridden to channel being call. -/
def deriveOutcomeFlags (event : OutreachEvent) : OutcomeFlags :=
  { OUTCOME_FLAG_MAP event.outcome with is_dial := decide (event.channel = Channel.call) }

/-- Stable insertion step: place x before the first element y with le x y.
Together with stableSort this models the stable ascending sort of
Array.prototype.sort with a consistent comparator. -/
def insertSorted (le : α → α → Bool) (x : α) : List α → List α
  | [] => [x]
  | y :: ys => if le x y then x :: y :: ys else y :: insertSorted le x ys

/-- Stable sort modelling Array.prototype.sort (ES2019+ guarantees
stability; the comparators used by the code are total preorders). -/
def stableSort (le : α → α → Bool) : List α → List α
  | [] => []
  | x :: xs => insertSorted le x (stableSort le xs)

/-- Lookup maps built by the first pass of deriveEvents. The source keeps
two parallel maps per attribution (event id and time), always written
together at the same event; they are modelled as one map to a pair of the
event id and the timestamp. -/
structure FirstScan where
  firstContact : String → Option (String × Int)
  firstMeeting : String → Option (String × Int)

/-- Functional update of a string-keyed lookup map. -/
def mapSet (m : String → Option α) (k : String) (v : α) : String → Option α :=
  fun q => if q = k then some v else m q

/-- Meeting-stage test of deriveEvents line 120: booked, held or qualified
flag set (note this is true for the no_show outcome as well, since its
flag row sets is_meeting_booked). -/
def isMeetingOutcomeFlags (flags : OutcomeFlags) : Bool :=
  flags.is_meeting_booked || flags.is_meeting_held || flags.is_qualified

/-- One iteration of the forEach of deriveEvents over the sorted events:
record the first event of the lead and, separately, the first meeting-stage
event of the lead, if not already present. The source updates the contact
maps before testing the meeting maps; the two families of maps are
disjoint, so the two conditional updates are written side by side. -/
def scanStep (maps : FirstScan) (event : OutreachEvent) : FirstScan where
  firstContact :=
    if (maps.firstContact event.lead_id).isNone then
      mapSet maps.firstContact event.lead_id (event.event_id, event.timestamp)
    else maps.firstContact
  firstMeeting :=
    if isMeetingOutcomeFlags (deriveOutcomeFlags event) &&
        (maps.firstMeeting event.lead_id).isNone then
      mapSet maps.firstMeeting event.lead_id (event.event_id, event.timestamp)
    else maps.firstMeeting

/-- First pass of deriveEvents: fold the scan step over the sorted events. -/
def scanFirst (sortedEvents : List OutreachEvent) : FirstScan :=
  sortedEvents.foldl scanStep { firstContact := fun _ => none, firstMeeting := fun _ => none }

/-- Second pass of deriveEvents, for one event: flags, first-contact test,
and time-to-meeting set only on the recorded first-meeting event of the
lead of the event. -/
def deriveOne (maps : FirstScan) (event : OutreachEvent) : DerivedEvent :=
  let flags := deriveOutcomeFlags event
  let firstContact := maps.firstContact event.lead_id
  let firstMeeting := maps.firstMeeting event.lead_id
  let isFirstContact := decide (firstContact.map Prod.fst = some event.event_id)
  let isFirstMeeting := decide (firstMeeting.map Prod.fst = some event.event_id)
  let timeToMeeting : Option ℚ :=
    if isFirstMeeting then
      match firstContact, firstMeeting with
      | some (_, fc), some (_, fm) => some (((fm - fc : Int) : ℚ) / MS_PER_DAY)
      | _, _ => none
    else none
  { toOutreachEvent := event
    is_connected := flags.is_connected
    is_conversation := flags.is_conversation
    is_meeting_booked := flags.is_meeting_booked
    is_meeting_held := flags.is_meeting_held
    is_qualified := flags.is_qualified
    is_no_show := flags.is_no_show
    is_dial := decide (event.channel = Channel.call)
    is_first_contact := isFirstContact
    time_to_meeting_days := timeToMeeting }

/-- Timestamp comparator of deriveEvents line 101, as the total preorder
le of the modelled stable sort. -/
def timestampLe (a b : OutreachEvent) : Bool := decide (a.timestamp ≤ b.timestamp)

/-- deriveEvents of src/data/transforms.ts: sort a working copy by
timestamp, record first-contact and first-meeting attribution per lead,
then map the original list (in input order) to derived events. -/
def deriveEvents (events : List OutreachEvent) : List DerivedEvent :=
  let sortedEvents := stableSort timestampLe events
  let maps := scanFirst sortedEvents
  events.map (deriveOne maps)

/-- RateSummary of src/data/transforms.ts, with the nullable rate as an
optional rational. -/
structure RateSummary where
  numerator : Nat
  denominator : Nat
  rate : Option ℚ
deriving DecidableEq, Repr

/-- calculateRate of src/data/transforms.ts: null on a zero denominator,
otherwise the exact quotient. -/
def calculateRate (numerator denominator : Nat) : RateSummary :=
  { numerator := numerator
    denominator := denominator
    rate := if denominator = 0 then none else some ((numerator : ℚ) / (denominator : ℚ)) }

/-- computeDialToConnectRate of src/data/transforms.ts. -/
def computeDialToConnectRate (events : List DerivedEvent) : RateSummary :=
  let denominator := (events.filter (fun event => event.is_dial)).length
  let numerator := (events.filter (fun event => event.is_dial && event.is_connected)).length
  calculateRate numerator denominator

/-- computeConnectToConversationRate of src/data/transforms.ts. -/
def computeConnectToConversationRate (events : List DerivedEvent) : RateSummary :=
  let denominator := (events.filter (fun event => event.is_connected)).length
  let numerator := (events.filter (fun event => event.is_conversation)).length
  calculateRate numerator denominator

/-- computeMeetingToQualifiedRate of src/data/transforms.ts. -/
def computeMeetingToQualifiedRate (events : List DerivedEvent) : RateSummary :=
  let denominator := (events.filter (fun event => event.is_meeting_held)).length
  let numerator := (events.filter (fun event => event.is_qualified)).length
  calculateRate numerator denominator

/-- computeNoShowRate of src/data/transforms.ts. -/
def computeNoShowRate (events : List DerivedEvent) : RateSummary :=
  let denominator := (events.filter (fun event => event.is_meeting_booked)).length
  let numerator := (events.filter (fun event => event.is_no_show)).length
  calculateRate numerator denominator

/-- Null-safety contract of one rate summary: the rate is null exactly when
the denominator is zero, and otherwise is the exact quotient (in the
rational model no NaN value exists; a non-null rate is always a genuine
quotient). -/
def rateLawful (r : RateSummary) : Prop :=
  (r.rate = none ↔ r.denominator = 0) ∧
  (r.denominator ≠ 0 → r.rate = some ((r.numerator : ℚ) / (r.denominator : ℚ)))

theorem calculateRate_lawful (n d : Nat) : rateLawful (calculateRate n d) := by
  unfold rateLawful calculateRate
  by_cases h : d = 0 <;> simp [h]

theorem outcome_flags_of_mem_deriveEvents {events : List OutreachEvent} {d : DerivedEvent}
    (hd : d ∈ deriveEvents events) :
    d.is_connected = (OUTCOME_FLAG_MAP d.outcome).is_connected ∧
    d.is_conversation = (OUTCOME_FLAG_MAP d.outcome).is_conversation ∧
    d.is_meeting_booked = (OUTCOME_FLAG_MAP d.outcome).is_meeting_booked ∧
    d.is_meeting_held = (OUTCOME_FLAG_MAP d.outcome).is_meeting_held ∧
    d.is_qualified = (OUTCOME_FLAG_MAP d.outcome).is_qualified ∧
    d.is_no_show = (OUTCOME_FLAG_MAP d.outcome).is_no_show ∧
    d.is_dial = decide (d.channel = Channel.call) := by
  unfold deriveEvents at hd
  simp only [List.mem_map] at hd
  obtain ⟨e, _, rfl⟩ := hd
  simp [deriveOne, deriveOutcomeFlags]

/-- C2: the flag lookup realises the outcome progression: every outcome
implies the flags of all weaker outcomes (qualified implies held, booked,
conversation, connected; and so on down the chain), except that no_show
sets is_meeting_booked but leaves is_meeting_held and is_qualified false.
Stated both for OUTCOME_FLAG_MAP and for deriveOutcomeFlags, the lookup
actually used by the deriver. -/
theorem outcome_flag_map_progression :
    (∀ o : Outcome,
      ((OUTCOME_FLAG_MAP o).is_conversation → (OUTCOME_FLAG_MAP o).is_connected) ∧
      ((OUTCOME_FLAG_MAP o).is_meeting_booked →
        (OUTCOME_FLAG_MAP o).is_conversation ∧ (OUTCOME_FLAG_MAP o).is_connected) ∧
      ((OUTCOME_FLAG_MAP o).is_meeting_held →
        (OUTCOME_FLAG_MAP o).is_meeting_booked ∧ (OUTCOME_FLAG_MAP o).is_conversation ∧
          (OUTCOME_FLAG_MAP o).is_connected) ∧
      ((OUTCOME_FLAG_MAP o).is_qualified →
        (OUTCOME_FLAG_MAP o).is_meeting_held ∧ (OUTCOME_FLAG_MAP o).is_meeting_booked ∧
          (OUTCOME_FLAG_MAP o).is_conversation ∧ (OUTCOME_FLAG_MAP o).is_connected)) ∧
    (OUTCOME_FLAG_MAP Outcome.no_show).is_meeting_booked = true ∧
    (OUTCOME_FLAG_MAP Outcome.no_show).is_meeting_held = false ∧
    (OUTCOME_FLAG_MAP Outcome.no_show).is_qualified = false ∧
    (∀ event : OutreachEvent,
      ((deriveOutcomeFlags event).is_qualified →
        (deriveOutcomeFlags event).is_meeting_held ∧
          (deriveOutcomeFlags event).is_meeting_booked ∧
          (deriveOutcomeFlags event).is_conversation ∧
          (deriveOutcomeFlags event).is_connected) ∧
      ((deriveOutcomeFlags event).is_no_show →
        (deriveOutcomeFlags event).is_meeting_booked ∧
          ¬ (deriveOutcomeFlags event).is_meeting_held ∧
          ¬ (deriveOutcomeFlags event).is_qualified)) := by
  refine ⟨fun o => ?_, by decide, by decide, by decide, fun event => ?_⟩
  · cases o <;> decide
  · simp only [deriveOutcomeFlags]
    cases event.outcome <;> decide

theorem insertSorted_perm (le : α → α → Bool) (x : α) (l : List α) :
    (insertSorted le x l).Perm (x :: l) := by
  induction l with
  | nil => exact List.Perm.refl _
  | cons y ys ih =>
    simp only [insertSorted]
    by_cases h : le x y
    · simp [h]
    · simp only [h, if_false, Bool.false_eq_true]
      exact (ih.cons y).trans (List.Perm.swap x y ys)

theorem stableSort_perm (le : α → α → Bool) (l : List α) : (stableSort le l).Perm l := by
  induction l with
  | nil => exact List.Perm.refl _
  | cons x xs ih =>
    exact (insertSorted_perm le x (stableSort le xs)).trans (ih.cons x)

theorem insertSorted_pairwise {le : α → α → Bool}
    (htrans : ∀ a b c, le a b = true → le b c = true → le a c = true)
    (htot : ∀ a b, le a b = true ∨ le b a = true)
    (x : α) {l : List α} (h : l.Pairwise (fun a b => le a b = true)) :
    (insertSorted le x l).Pairwise (fun a b => le a b = true) := by
  induction l with
  | nil => simp [insertSorted]
  | cons y ys ih =>
    rcases List.pairwise_cons.mp h with ⟨hy, hys⟩
    unfold insertSorted
    by_cases hxy : le x y = true
    · simp only [hxy, if_true]
      refine List.pairwise_cons.mpr ⟨?_, h⟩
      intro z hz
      rcases List.mem_cons.mp hz with rfl | hz
      · exact hxy
      · exact htrans x y z hxy (hy z hz)
    · simp only [hxy, if_false]
      refine List.pairwise_cons.mpr ⟨?_, ih hys⟩
      intro z hz
      have hz' := (insertSorted_perm le x ys).mem_iff.mp hz
      rcases List.mem_cons.mp hz' with h1 | hz'
      · rw [h1]
        rcases htot x y with hh | hh
        · exact absurd hh hxy
        · exact hh
      · exact hy z hz'

theorem stableSort_pairwise {le : α → α → Bool}
    (htrans : ∀ a b c, le a b = true → le b c = true → le a c = true)
    (htot : ∀ a b, le a b = true ∨ le b a = true) (l : List α) :
    (stableSort le l).Pairwise (fun a b => le a b = true) := by
  induction l with
  | nil => simp [stableSort]
  | cons x xs ih => exact insertSorted_pairwise htrans htot x ih

theorem find?_is_min {le : α → α → Bool} {l : List α} {e : α}
    (hl : l.Pairwise (fun a b => le a b = true)) :
    ∀ {q : α → Bool}, l.find? q = some e → ∀ x ∈ l, q x = true → e = x ∨ le e x = true := by
  induction l with
  | nil => intro q he; simp at he
  | cons y ys ih =>
    intro q he x hx hqx
    rcases List.pairwise_cons.mp hl with ⟨hy, hys⟩
    cases hqy : q y with
    | true =>
      simp only [List.find?_cons, hqy, Option.some.injEq] at he
      subst he
      rcases List.mem_cons.mp hx with h1 | hx
      · exact Or.inl h1.symm
      · exact Or.inr (hy x hx)
    | false =>
      simp only [List.find?_cons, hqy] at he
      rcases List.mem_cons.mp hx with h1 | hx
      · subst h1
        rw [hqy] at hqx
        exact absurd hqx (by simp)
      · exact ih hys he x hx hqx

/-- Lead-id match predicate used to characterise the first-contact map. -/
def leadMatch (lead : String) (e : OutreachEvent) : Bool := decide (e.lead_id = lead)

/-- Meeting-stage test on a raw event, as the deriver computes it. -/
def meetingFlag (e : OutreachEvent) : Bool := isMeetingOutcomeFlags (deriveOutcomeFlags e)

/-- Lead-id and meeting-stage match predicate used to characterise the
first-meeting map. -/
def leadMeetingMatch (lead : String) (e : OutreachEvent) : Bool :=
  leadMatch lead e && meetingFlag e

theorem scanStep_firstContact (maps : FirstScan) (event : OutreachEvent) (lead : String) :
    (scanStep maps event).firstContact lead =
      if event.lead_id = lead ∧ (maps.firstContact event.lead_id).isNone then
        some (event.event_id, event.timestamp)
      else maps.firstContact lead := by
  show (if (maps.firstContact event.lead_id).isNone then
      mapSet maps.firstContact event.lead_id (event.event_id, event.timestamp)
    else maps.firstContact) lead = _
  by_cases hl : event.lead_id = lead
  · subst hl
    by_cases hc : (maps.firstContact event.lead_id).isNone <;> simp [hc, mapSet]
  · have hl2 : ¬ lead = event.lead_id := fun h => hl h.symm
    by_cases hc : (maps.firstContact event.lead_id).isNone <;> simp [hc, hl, hl2, mapSet]

theorem scanStep_firstMeeting (maps : FirstScan) (event : OutreachEvent) (lead : String) :
    (scanStep maps event).firstMeeting lead =
      if event.lead_id = lead ∧ meetingFlag event = true ∧
          (maps.firstMeeting event.lead_id).isNone then
        some (event.event_id, event.timestamp)
      else maps.firstMeeting lead := by
  show (if isMeetingOutcomeFlags (deriveOutcomeFlags event) &&
        (maps.firstMeeting event.lead_id).isNone then
      mapSet maps.firstMeeting event.lead_id (event.event_id, event.timestamp)
    else maps.firstMeeting) lead = _
  by_cases hl : event.lead_id = lead
  · subst hl
    by_cases hm : isMeetingOutcomeFlags (deriveOutcomeFlags event) <;>
      by_cases hmm : (maps.firstMeeting event.lead_id).isNone <;>
        simp [hm, hmm, mapSet, meetingFlag]
  · have hl2 : ¬ lead = event.lead_id := fun h => hl h.symm
    by_cases hm : isMeetingOutcomeFlags (deriveOutcomeFlags event) <;>
      by_cases hmm : (maps.firstMeeting event.lead_id).isNone <;>
        simp [hm, hmm, hl, hl2, mapSet, meetingFlag]

theorem scanFoldl_contact (l : List OutreachEvent) (init : FirstScan) (lead : String) :
    (l.foldl scanStep init).firstContact lead =
      ((init.firstContact lead).or
        ((l.find? (leadMatch lead)).map (fun e => (e.event_id, e.timestamp)))) := by
  induction l generalizing init with
  | nil => simp
  | cons e es ih =>
    rw [List.foldl_cons, ih, List.find?_cons]
    by_cases hl : e.lead_id = lead
    · subst hl
      rw [scanStep_firstContact]
      by_cases hc : (init.firstContact e.lead_id).isNone
      · rw [if_pos ⟨rfl, hc⟩]
        rw [Option.isNone_iff_eq_none] at hc
        simp [hc, leadMatch]
      · rw [if_neg (by simp [hc])]
        rw [Option.isNone_iff_eq_none] at hc
        rcases ho : init.firstContact e.lead_id with _ | v
        · exact absurd ho hc
        · simp [ho, leadMatch]
    · rw [scanStep_firstContact, if_neg (by simp [hl])]
      simp [hl, leadMatch]

theorem scanFoldl_meeting (l : List OutreachEvent) (init : FirstScan) (lead : String) :
    (l.foldl scanStep init).firstMeeting lead =
      ((init.firstMeeting lead).or
        ((l.find? (leadMeetingMatch lead)).map (fun e => (e.event_id, e.timestamp)))) := by
  induction l generalizing init with
  | nil => simp
  | cons e es ih =>
    rw [List.foldl_cons, ih, List.find?_cons]
    by_cases hl : e.lead_id = lead
    · subst hl
      rw [scanStep_firstMeeting]
      by_cases hf : meetingFlag e = true
      · by_cases hc : (init.firstMeeting e.lead_id).isNone
        · rw [if_pos ⟨rfl, hf, hc⟩]
          rw [Option.isNone_iff_eq_none] at hc
          simp [hc, leadMeetingMatch, leadMatch, hf]
        · rw [if_neg (by simp [hc])]
          rw [Option.isNone_iff_eq_none] at hc
          rcases ho : init.firstMeeting e.lead_id with _ | v
          · exact absurd ho hc
          · simp [ho, leadMeetingMatch, leadMatch, hf]
      · rw [if_neg (by simp [hf])]
        simp [leadMeetingMatch, leadMatch, hf]
    · rw [scanStep_firstMeeting, if_neg (by simp [hl])]
      simp [hl, leadMeetingMatch, leadMatch]

theorem scanFirst_contact (l : List OutreachEvent) (lead : String) :
    (scanFirst l).firstContact lead =
      (l.find? (leadMatch lead)).map (fun e => (e.event_id, e.timestamp)) := by
  rw [scanFirst, scanFoldl_contact]
  rfl

theorem scanFirst_meeting (l : List OutreachEvent) (lead : String) :
    (scanFirst l).firstMeeting lead =
      (l.find? (leadMeetingMatch lead)).map (fun e => (e.event_id, e.timestamp)) := by
  rw [scanFirst, scanFoldl_meeting]
  rfl

/-- C3: each of the four rate computations produces a lawful RateSummary
(rate null exactly on a zero denominator, otherwise the exact quotient,
never a division by zero), and on the empty event list all four return
numerator 0, denominator 0 and a null rate. -/
theorem rate_computations_null_safe (events : List DerivedEvent) :
    rateLawful (computeDialToConnectRate events) ∧
    rateLawful (computeConnectToConversationRate events) ∧
    rateLawful (computeMeetingToQualifiedRate events) ∧
    rateLawful (computeNoShowRate events) ∧
    computeDialToConnectRate [] = { numerator := 0, denominator := 0, rate := none } ∧
    computeConnectToConversationRate [] = { numerator := 0, denominator := 0, rate := none } ∧
    computeMeetingToQualifiedRate [] = { numerator := 0, denominator := 0, rate := none } ∧
    computeNoShowRate [] = { numerator := 0, denominator := 0, rate := none } := by
  refine ⟨calculateRate_lawful _ _, calculateRate_lawful _ _, calculateRate_lawful _ _,
    calculateRate_lawful _ _, rfl, rfl, rfl, rfl⟩

theorem filter_length_mono {p q : α → Bool} (l : List α) (h : ∀ x ∈ l, p x = true → q x = true) :
    (l.filter p).length ≤ (l.filter q).length := by
  rw [← List.countP_eq_length_filter, ← List.countP_eq_length_filter]
  exact List.countP_mono_left h

/-- Boundedness contract of one rate summary: the numerator never exceeds
the denominator, and a non-null rate always lies between 0 and 1. -/
def rateBounded (r : RateSummary) : Prop :=
  r.numerator ≤ r.denominator ∧ ∀ q : ℚ, r.rate = some q → 0 ≤ q ∧ q ≤ 1

theorem calculateRate_bounded {n d : Nat} (h : n ≤ d) : rateBounded (calculateRate n d) := by
  refine ⟨h, fun q hq => ?_⟩
  unfold calculateRate at hq
  by_cases hd : d = 0
  · simp [hd] at hq
  · simp only [hd, if_false] at hq
    rw [Option.some.injEq] at hq
    subst hq
    have hdq : (0 : ℚ) < (d : ℚ) := by
      exact_mod_cast Nat.pos_of_ne_zero hd
    constructor
    · positivity
    · rw [div_le_one hdq]
      exact_mod_cast h

theorem derived_flag_chain {events : List OutreachEvent} {d : DerivedEvent}
    (hd : d ∈ deriveEvents events) :
    (d.is_conversation = true → d.is_connected = true) ∧
    (d.is_meeting_booked = true → d.is_conversation = true) ∧
    (d.is_meeting_held = true → d.is_meeting_booked = true) ∧
    (d.is_qualified = true → d.is_meeting_held = true) ∧
    (d.is_no_show = true → d.is_meeting_booked = true) := by
  obtain ⟨h1, h2, h3, h4, h5, h6, h7⟩ := outcome_flags_of_mem_deriveEvents hd
  rw [h1, h2, h3, h4, h5, h6]
  cases d.toOutreachEvent.outcome <;> simp [OUTCOME_FLAG_MAP]

/-- C10: on the output of deriveEvents, each of the four rate computations
returns a summary with numerator at most the denominator, and every
non-null rate lies in the closed interval from 0 to 1 (the numerator
predicates imply the denominator predicates on derived events). -/
theorem derived_rates_bounded (events : List OutreachEvent) :
    rateBounded (computeDialToConnectRate (deriveEvents events)) ∧
    rateBounded (computeConnectToConversationRate (deriveEvents events)) ∧
    rateBounded (computeMeetingToQualifiedRate (deriveEvents events)) ∧
    rateBounded (computeNoShowRate (deriveEvents events)) := by
  refine ⟨calculateRate_bounded (filter_length_mono _ ?_),
    calculateRate_bounded (filter_length_mono _ ?_),
    calculateRate_bounded (filter_length_mono _ ?_),
    calculateRate_bounded (filter_length_mono _ ?_)⟩
  · intro d _ h
    rw [Bool.and_eq_true] at h
    exact h.1
  · intro d hd h
    exact (derived_flag_chain hd).1 h
  · intro d hd h
    exact (derived_flag_chain hd).2.2.2.1 h
  · intro d hd h
    exact (derived_flag_chain hd).2.2.2.2 h

theorem timestampLe_trans : ∀ a b c : OutreachEvent,
    timestampLe a b = true → timestampLe b c = true → timestampLe a c = true := by
  intro a b c hab hbc
  simp only [timestampLe, decide_eq_true_eq] at *
  exact le_trans hab hbc

theorem timestampLe_total : ∀ a b : OutreachEvent,
    timestampLe a b = true ∨ timestampLe b a = true := by
  intro a b
  simp only [timestampLe, decide_eq_true_eq]
  exact le_total a.timestamp b.timestamp

theorem scanFirst_contact_found {events : List OutreachEvent} {lead : String} {v : String × Int}
    (h : (scanFirst (stableSort timestampLe events)).firstContact lead = some v) :
    ∃ c ∈ events, c.lead_id = lead ∧ v = (c.event_id, c.timestamp) ∧
      ∀ x ∈ events, x.lead_id = lead → c.timestamp ≤ x.timestamp := by
  rw [scanFirst_contact] at h
  rcases Option.map_eq_some'.mp h with ⟨c, hfind, hv⟩
  have hpred := List.find?_some hfind
  have hmem := List.mem_of_find?_eq_some hfind
  have hperm := stableSort_perm timestampLe events
  have hpw := stableSort_pairwise timestampLe_trans timestampLe_total events
  refine ⟨c, hperm.mem_iff.mp hmem, ?_, hv.symm, ?_⟩
  · simpa [leadMatch] using hpred
  · intro x hx hxl
    have hxs : x ∈ stableSort timestampLe events := hperm.mem_iff.mpr hx
    have hqx : leadMatch lead x = true := by simp [leadMatch, hxl]
    rcases find?_is_min hpw hfind x hxs hqx with h1 | h1
    · rw [← h1]
    · simpa [timestampLe] using h1

theorem scanFirst_meeting_found {events : List OutreachEvent} {lead : String} {v : String × Int}
    (h : (scanFirst (stableSort timestampLe events)).firstMeeting lead = some v) :
    ∃ m ∈ events, m.lead_id = lead ∧ meetingFlag m = true ∧ v = (m.event_id, m.timestamp) ∧
      ∀ x ∈ events, x.lead_id = lead → meetingFlag x = true → m.timestamp ≤ x.timestamp := by
  rw [scanFirst_meeting] at h
  rcases Option.map_eq_some'.mp h with ⟨m, hfind, hv⟩
  have hpred := List.find?_some hfind
  have hmem := List.mem_of_find?_eq_some hfind
  have hperm := stableSort_perm timestampLe events
  have hpw := stableSort_pairwise timestampLe_trans timestampLe_total events
  rw [leadMeetingMatch, Bool.and_eq_true] at hpred
  refine ⟨m, hperm.mem_iff.mp hmem, ?_, hpred.2, hv.symm, ?_⟩
  · simpa [leadMatch] using hpred.1
  · intro x hx hxl hxf
    have hxs : x ∈ stableSort timestampLe events := hperm.mem_iff.mpr hx
    have hqx : leadMeetingMatch lead x = true := by
      simp [leadMeetingMatch, leadMatch, hxl, hxf]
    rcases find?_is_min hpw hfind x hxs hqx with h1 | h1
    · rw [← h1]
    · simpa [timestampLe] using h1

theorem scanFirst_meeting_none {events : List OutreachEvent} {lead : String}
    (h : ∀ x ∈ events, x.lead_id = lead → meetingFlag x = false) :
    (scanFirst (stableSort timestampLe events)).firstMeeting lead = none := by
  rw [scanFirst_meeting]
  rw [Option.map_eq_none']
  rw [List.find?_eq_none]
  intro x hxs
  have hx : x ∈ events := (stableSort_perm timestampLe events).mem_iff.mp hxs
  rw [leadMeetingMatch]
  by_cases hxl : x.lead_id = lead
  · simp [leadMatch, hxl, h x hx hxl]
  · simp [leadMatch, hxl]

theorem deriveOne_time (maps : FirstScan) (e : OutreachEvent) :
    (deriveOne maps e).time_to_meeting_days =
      if (maps.firstMeeting e.lead_id).map Prod.fst = some e.event_id then
        match maps.firstContact e.lead_id, maps.firstMeeting e.lead_id with
        | some (_, fc), some (_, fm) => some (((fm - fc : Int) : ℚ) / MS_PER_DAY)
        | _, _ => none
      else none := by
  simp only [deriveOne]
  by_cases hm : (maps.firstMeeting e.lead_id).map Prod.fst = some e.event_id <;> simp [hm]

theorem deriveOne_first_contact (maps : FirstScan) (e : OutreachEvent) :
    (deriveOne maps e).is_first_contact =
      decide ((maps.firstContact e.lead_id).map Prod.fst = some e.event_id) := rfl

theorem deriveEvents_getElem? (events : List OutreachEvent) (i : Nat) :
    (deriveEvents events)[i]? =
      (events[i]?).map (deriveOne (scanFirst (stableSort timestampLe events))) := by
  rw [deriveEvents, List.getElem?_map]

/-- C4 (amended): attribution of time_to_meeting_days by deriveEvents.
Writing maps for the first-contact and first-meeting tables built over the
timestamp-sorted events, and meeting-stage for the flag test used by the
deriver (booked, held or qualified flag — which includes the no_show
outcome): (1) every event of a lead with no meeting-stage event gets a null
time_to_meeting_days; a non-null value equals the difference between the
earliest meeting-stage timestamp of the lead and the earliest overall
timestamp of the lead, divided by 86400000 ms per day, and is never
negative; (2) when event ids are unique (the data-model assumption of the
spec), the event carrying the non-null value is itself a meeting-stage
event of its lead with the earliest meeting-stage timestamp, at most one
event per lead carries a non-null value, and if that event is also the
first contact of the lead the value is 0. -/
theorem deriveEvents_time_to_meeting (events : List OutreachEvent) :
    (∀ (i : Nat) (e : OutreachEvent) (d : DerivedEvent),
      events[i]? = some e → (deriveEvents events)[i]? = some d →
      ((∀ x ∈ events, x.lead_id = e.lead_id → meetingFlag x = false) →
        d.time_to_meeting_days = none) ∧
      (∀ q : ℚ, d.time_to_meeting_days = some q →
        0 ≤ q ∧
        ∃ c m, c ∈ events ∧ m ∈ events ∧ c.lead_id = e.lead_id ∧ m.lead_id = e.lead_id ∧
          meetingFlag m = true ∧
          (∀ x ∈ events, x.lead_id = e.lead_id → c.timestamp ≤ x.timestamp) ∧
          (∀ x ∈ events, x.lead_id = e.lead_id → meetingFlag x = true →
            m.timestamp ≤ x.timestamp) ∧
          q = ((m.timestamp - c.timestamp : Int) : ℚ) / MS_PER_DAY)) ∧
    ((events.map (fun e => e.event_id)).Nodup →
      ∀ (i : Nat) (e : OutreachEvent) (d : DerivedEvent),
        events[i]? = some e → (deriveEvents events)[i]? = some d →
        (∀ q : ℚ, d.time_to_meeting_days = some q →
          meetingFlag e = true ∧
          (∀ x ∈ events, x.lead_id = e.lead_id → meetingFlag x = true →
            e.timestamp ≤ x.timestamp) ∧
          (d.is_first_contact = true → q = 0)) ∧
        (∀ (j : Nat) (e2 : OutreachEvent) (d2 : DerivedEvent),
          events[j]? = some e2 → (deriveEvents events)[j]? = some d2 →
          e2.lead_id = e.lead_id → d.time_to_meeting_days ≠ none →
          d2.time_to_meeting_days ≠ none → i = j)) := by
  have hmain : ∀ (i : Nat) (e : OutreachEvent) (d : DerivedEvent),
      events[i]? = some e → (deriveEvents events)[i]? = some d →
      d = deriveOne (scanFirst (stableSort timestampLe events)) e := by
    intro i e d he hd
    rw [deriveEvents_getElem?, he] at hd
    exact (Option.some.injEq _ _ ▸ hd.symm)
  constructor
  · intro i e d he hd
    have hde := hmain i e d he hd
    subst hde
    constructor
    · intro hno
      rw [deriveOne_time, scanFirst_meeting_none hno]
      simp
    · intro q hq
      rw [deriveOne_time] at hq
      by_cases hif : ((scanFirst (stableSort timestampLe events)).firstMeeting
          e.lead_id).map Prod.fst = some e.event_id
      · rw [if_pos hif] at hq
        rcases hcm : (scanFirst (stableSort timestampLe events)).firstContact e.lead_id with
          _ | ⟨cid, fc⟩
        · rcases hmm : (scanFirst (stableSort timestampLe events)).firstMeeting e.lead_id with
            _ | ⟨mid, fm⟩ <;> rw [hcm, hmm] at hq <;> simp at hq
        · rcases hmm : (scanFirst (stableSort timestampLe events)).firstMeeting e.lead_id with
            _ | ⟨mid, fm⟩
          · rw [hcm, hmm] at hq; simp at hq
          · rw [hcm, hmm] at hq
            simp only [Option.some.injEq] at hq
            rcases scanFirst_contact_found hcm with ⟨c, hcmem, hcl, hcv, hcmin⟩
            rcases scanFirst_meeting_found hmm with ⟨m, hmmem, hml, hmf, hmv, hmmin⟩
            rw [Prod.mk.injEq] at hcv hmv
            have hfc : fc = c.timestamp := hcv.2
            have hfm : fm = m.timestamp := hmv.2
            subst hfc hfm
            have hle : c.timestamp ≤ m.timestamp := hcmin m hmmem hml
            constructor
            · rw [← hq]
              have h1 : (0 : ℚ) ≤ ((m.timestamp - c.timestamp : Int) : ℚ) := by
                have := sub_nonneg.mpr hle
                exact_mod_cast this
              have h2 : (0 : ℚ) < MS_PER_DAY := by norm_num [MS_PER_DAY]
              positivity
            · exact ⟨c, m, hcmem, hmmem, hcl, hml, hmf, hcmin, hmmin, hq.symm⟩
      · rw [if_neg hif] at hq
        simp at hq
  · intro hnodup i e d he hd
    have hde := hmain i e d he hd
    have hemem : e ∈ events := List.getElem?_mem he
    constructor
    · intro q hq
      subst hde
      rw [deriveOne_time] at hq
      by_cases hif : ((scanFirst (stableSort timestampLe events)).firstMeeting
          e.lead_id).map Prod.fst = some e.event_id
      · rcases hmm : (scanFirst (stableSort timestampLe events)).firstMeeting e.lead_id with
          _ | ⟨mid, fm⟩
        · rw [hmm] at hif; simp at hif
        · rcases scanFirst_meeting_found hmm with ⟨m, hmmem, hml, hmf, hmv, hmmin⟩
          rw [Prod.mk.injEq] at hmv
          have hid : m.event_id = e.event_id := by
            rw [hmm] at hif
            simp only [Option.map_some', Option.some.injEq] at hif
            rw [← hmv.1, hif]
          have hme : m = e := List.inj_on_of_nodup_map hnodup hmmem hemem hid
          subst hme
          refine ⟨hmf, fun x hx hxl hxf => hmmin x hx (hml ▸ hxl) hxf, ?_⟩
          -- first contact same event forces value 0
          intro hfc
          rw [deriveOne_first_contact, decide_eq_true_eq] at hfc
          rcases hcm : (scanFirst (stableSort timestampLe events)).firstContact m.lead_id with
            _ | ⟨cid, fc⟩
          · rw [hcm] at hfc; simp at hfc
          · rcases scanFirst_contact_found hcm with ⟨c, hcmem, hcl, hcv, hcmin⟩
            rw [Prod.mk.injEq] at hcv
            have hcid : c.event_id = m.event_id := by
              rw [hcm] at hfc
              simp only [Option.map_some', Option.some.injEq] at hfc
              rw [← hcv.1, hfc]
            have hcme : c = m := List.inj_on_of_nodup_map hnodup hcmem hmmem hcid
            rw [if_pos hif, hcm, hmm] at hq
            simp only [Option.some.injEq] at hq
            rw [← hq, hcv.2, hmv.2, hcme]
            simp
      · rw [if_neg hif] at hq
        simp at hq
    · intro j e2 d2 he2 hd2 hlead hne hne2
      have hde2 := hmain j e2 d2 he2 hd2
      have hfm1 : ((scanFirst (stableSort timestampLe events)).firstMeeting
          e.lead_id).map Prod.fst = some e.event_id := by
        subst hde
        rw [deriveOne_time] at hne
        by_cases hif : ((scanFirst (stableSort timestampLe events)).firstMeeting
            e.lead_id).map Prod.fst = some e.event_id
        · exact hif
        · rw [if_neg hif] at hne; simp at hne
      have hfm2 : ((scanFirst (stableSort timestampLe events)).firstMeeting
          e2.lead_id).map Prod.fst = some e2.event_id := by
        subst hde2
        rw [deriveOne_time] at hne2
        by_cases hif : ((scanFirst (stableSort timestampLe events)).firstMeeting
            e2.lead_id).map Prod.fst = some e2.event_id
        · exact hif
        · rw [if_neg hif] at hne2; simp at hne2
      rw [hlead] at hfm2
      have hids : e.event_id = e2.event_id := by
        rw [hfm1] at hfm2
        exact Option.some.injEq _ _ ▸ hfm2
      have hlen : i < events.length := (List.getElem?_eq_some.mp he).1
      have hlenm : i < (events.map (fun e => e.event_id)).length := by
        rw [List.length_map]; exact hlen
      refine List.getElem?_inj hlenm hnodup ?_
      rw [List.getElem?_map, List.getElem?_map, he, he2]
      simp [hids]

/-- Single no_show event used to refute the claim that only the outcomes
meeting_booked, meeting_held and qualified can carry time_to_meeting_days. -/
def noShowEvent : OutreachEvent :=
  { event_id := "evt-1", lead_id := "lead-1", timestamp := 0, week_start := 0
    sdr_id := "sdr-1", sdr_name := "Jordan", team := "Outbound", company := "Acme"
    industry := "SaaS", channel := Channel.call, outcome := Outcome.no_show
    objection := none }

/-- Counterexample to C4 as stated: a lead whose only event has outcome
no_show still receives a non-null time_to_meeting_days (of 0), because the
deriver treats any event with the meeting_booked flag — no_show included —
as a meeting-stage event, while the claim lists only meeting_booked,
meeting_held and qualified. -/
theorem deriveEvents_no_show_gets_time :
    ∃ d : DerivedEvent, (deriveEvents [noShowEvent])[0]? = some d ∧
      d.time_to_meeting_days = some 0 ∧
      d.outcome = Outcome.no_show ∧
      ∀ x ∈ [noShowEvent],
        x.outcome ≠ Outcome.meeting_booked ∧ x.outcome ≠ Outcome.meeting_held ∧
          x.outcome ≠ Outcome.qualified := by
  refine ⟨deriveOne (scanFirst (stableSort timestampLe [noShowEvent])) noShowEvent,
    rfl, ?_, rfl, by decide⟩
  have ht : (deriveOne (scanFirst (stableSort timestampLe [noShowEvent]))
      noShowEvent).time_to_meeting_days = some (((0 - 0 : Int) : ℚ) / MS_PER_DAY) := rfl
  rw [ht]
  norm_num

/-- Sample pair of events (one lead, a no_answer then a meeting_booked two
days later) used to witness the time-to-meeting theorem. -/
def contactThenMeeting : List OutreachEvent :=
  [{ event_id := "evt-1", lead_id := "lead-1", timestamp := 0, week_start := 0
     sdr_id := "sdr-1", sdr_name := "Jordan", team := "Outbound", company := "Acme"
     industry := "SaaS", channel := Channel.call, outcome := Outcome.no_answer
     objection := none },
   { event_id := "evt-2", lead_id := "lead-1", timestamp := 172800000, week_start := 0
     sdr_id := "sdr-1", sdr_name := "Jordan", team := "Outbound", company := "Acme"
     industry := "SaaS", channel := Channel.call, outcome := Outcome.meeting_booked
     objection := none }]

theorem deriveEvents_time_to_meeting_witness :
    ((contactThenMeeting.map (fun e => e.event_id)).Nodup) ∧
    (∀ (i : Nat) (e : OutreachEvent) (d : DerivedEvent),
      contactThenMeeting[i]? = some e →
      (deriveEvents contactThenMeeting)[i]? = some d →
      (∀ q : ℚ, d.time_to_meeting_days = some q →
        meetingFlag e = true ∧
        (∀ x ∈ contactThenMeeting, x.lead_id = e.lead_id → meetingFlag x = true →
          e.timestamp ≤ x.timestamp) ∧
        (d.is_first_contact = true → q = 0)) ∧
      (∀ (j : Nat) (e2 : OutreachEvent) (d2 : DerivedEvent),
        contactThenMeeting[j]? = some e2 →
        (deriveEvents contactThenMeeting)[j]? = some d2 →
        e2.lead_id = e.lead_id → d.time_to_meeting_days ≠ none →
        d2.time_to_meeting_days ≠ none → i = j)) :=
  ⟨by decide, (deriveEvents_time_to_meeting contactThenMeeting).2 (by decide)⟩

/-- Key of one of the three rate breakdowns of src/tabs/PipelineHealth.tsx. -/
inductive RateKey
  | dialToConnect
  | connectToConversation
  | meetingToQualified
deriving DecidableEq, Repr

/-- RATE_LABELS of src/tabs/PipelineHealth.tsx. -/
def RATE_LABELS : RateKey → String
  | RateKey.dialToConnect => "Dial to Connect"
  | RateKey.connectToConversation => "Connect to Conversation"
  | RateKey.meetingToQualified => "Meeting to Qualified"

/-- RateBreakdown of src/tabs/PipelineHealth.tsx; the value is the rate as
a percentage, still null when the underlying rate is null. -/
structure RateBreakdown where
  key : RateKey
  label : String
  numerator : Nat
  denominator : Nat
  value : Option ℚ
deriving DecidableEq, Repr

/-- buildRateBreakdowns of src/tabs/PipelineHealth.tsx: the three rate
summaries of the entity, each with its rate scaled to a percentage. -/
def buildRateBreakdowns (events : List DerivedEvent) : List RateBreakdown :=
  let dialToConnect := computeDialToConnectRate events
  let connectToConversation := computeConnectToConversationRate events
  let meetingToQualified := computeMeetingToQualifiedRate events
  [{ key := RateKey.dialToConnect, label := RATE_LABELS RateKey.dialToConnect
     numerator := dialToConnect.numerator, denominator := dialToConnect.denominator
     value := match dialToConnect.rate with
       | none => none
       | some r => some (r * 100) },
   { key := RateKey.connectToConversation, label := RATE_LABELS RateKey.connectToConversation
     numerator := connectToConversation.numerator
     denominator := connectToConversation.denominator
     value := match connectToConversation.rate with
       | none => none
       | some r => some (r * 100) },
   { key := RateKey.meetingToQualified, label := RATE_LABELS RateKey.meetingToQualified
     numerator := meetingToQualified.numerator, denominator := meetingToQualified.denominator
     value := match meetingToQualified.rate with
       | none => none
       | some r => some (r * 100) }]

/-- Math.round of JavaScript on the values this code rounds: floor of the
value plus one half (JavaScript rounds half-way cases toward positive
infinity). -/
def jsRound (q : ℚ) : Int := ⌊q + 1 / 2⌋

/-- computePipelineHealthScore of src/tabs/PipelineHealth.tsx: null when no
breakdown has a value, otherwise the rounded mean of the available values
(full precision carried until the single final rounding). -/
def computePipelineHealthScore (breakdowns : List RateBreakdown) : Option Int :=
  let availableValues := (breakdowns.map (fun item => item.value)).filterMap id
  if availableValues.length = 0 then none
  else
    some (jsRound
      ((availableValues.foldl (fun sum value => sum + value) 0) / (availableValues.length : ℚ)))

/-- EntityPipelineHealth of src/tabs/PipelineHealth.tsx. -/
structure EntityPipelineHealth where
  id : String
  label : String
  score : Int
  components : List RateBreakdown
deriving DecidableEq, Repr

/-- Comparator of createEntityPipelineHealth (score descending, then label
ascending; localeCompare is modelled as lexicographic string order), as the
le relation of the modelled stable sort. -/
def entityLe (a b : EntityPipelineHealth) : Bool :=
  decide (b.score < a.score) || (decide (a.score = b.score) && decide (a.label ≤ b.label))

/-- Insertion-ordered list of the distinct non-empty ids of the events, as
a JavaScript Map collects its keys. -/
def entityIds (events : List DerivedEvent) (getId : DerivedEvent → String) : List String :=
  events.foldl
    (fun acc e =>
      let id := getId e
      if id = "" then acc else if id ∈ acc then acc else acc ++ [id])
    []

/-- createEntityPipelineHealth of src/tabs/PipelineHealth.tsx: group events
by a string key (empty keys skipped), build the three breakdowns per group,
drop entities whose score is null, and sort by the comparator. The map
grouping of the source pushes events in input order, so each group is the
filter of the events at its id. -/
def createEntityPipelineHealth (events : List DerivedEvent)
    (getId : DerivedEvent → String) (getLabel : String → Option DerivedEvent → String) :
    List EntityPipelineHealth :=
  let entities := (entityIds events getId).filterMap (fun id =>
    let group := events.filter (fun e => decide (getId e = id))
    let breakdowns := buildRateBreakdowns group
    match computePipelineHealthScore breakdowns with
    | none => none
    | some score =>
      some { id := id, label := getLabel id group.head?, score := score
             components := breakdowns })
  stableSort entityLe entities

/-- FunnelStageKey of the summary module of src/tabs. -/
inductive FunnelStageKey
  | dials
  | connects
  | conversations
  | meetingsBooked
  | meetingsHeld
  | qualified
deriving DecidableEq, Repr

/-- One funnel stage entry: key, display label and distinct-lead count. -/
structure FunnelStage where
  key : FunnelStageKey
  label : String
  count : Nat
deriving DecidableEq, Repr

/-- FunnelSummary of the summary module of src/tabs. -/
structure FunnelSummary where
  id : String
  name : String
  stages : List FunnelStage
deriving DecidableEq, Repr

/-- STAGE_DEFINITIONS of src/tabs/PipelineHealth.tsx lines 1077 to 1088:
the six ordered stages with their predicates. The dials stage uses the
constant-true predicate of the source, not the is_dial flag. -/
def STAGE_DEFINITIONS : List (FunnelStageKey × String × (DerivedEvent → Bool)) :=
  [(FunnelStageKey.dials, "Dials", fun _ => true),
   (FunnelStageKey.connects, "Connects", fun event => event.is_connected),
   (FunnelStageKey.conversations, "Conversations", fun event => event.is_conversation),
   (FunnelStageKey.meetingsBooked, "Meetings Booked", fun event => event.is_meeting_booked),
   (FunnelStageKey.meetingsHeld, "Meetings Held", fun event => event.is_meeting_held),
   (FunnelStageKey.qualified, "Qualified", fun event => event.is_qualified)]

/-- MAX_ENTITY_COUNT of src/tabs/PipelineHealth.tsx. -/
def MAX_ENTITY_COUNT : Nat := 5

/-- Falsy-id normalisation of the funnel grouping: a null id or the empty
string is skipped. -/
def normId (getId : DerivedEvent → Option String) (e : DerivedEvent) : Option String :=
  match getId e with
  | none => none
  | some s => if s = "" then none else some s

/-- Insertion-ordered distinct group keys, as the Map of buildFunnels
collects them. -/
def funnelIds (events : List DerivedEvent) (getId : DerivedEvent → Option String) :
    List String :=
  events.foldl
    (fun acc e =>
      match normId getId e with
      | none => acc
      | some id => if id ∈ acc then acc else acc ++ [id])
    []

/-- Set.add of the distinct-lead loop of one stage. -/
def addDistinct [DecidableEq α] (acc : List α) (x : α) : List α :=
  if x ∈ acc then acc else acc ++ [x]

/-- Distinct-lead count of one stage over the events of one group: the size
of the set of lead ids of the events satisfying the stage predicate. -/
def distinctLeadCount (group : List DerivedEvent) (pred : DerivedEvent → Bool) : Nat :=
  (group.foldl (fun acc e => if pred e then addDistinct acc e.lead_id else acc) []).length

/-- One funnel of buildFunnels: the group of the id, the display name from
the first event of the group, and the six stage counts. -/
def mkFunnel (events : List DerivedEvent) (getId : DerivedEvent → Option String)
    (getName : String → Option DerivedEvent → String) (id : String) : FunnelSummary :=
  let entityEvents := events.filter (fun e => decide (normId getId e = some id))
  { id := id
    name := getName id entityEvents.head?
    stages := STAGE_DEFINITIONS.map (fun stage =>
      { key := stage.1, label := stage.2.1
        count := distinctLeadCount entityEvents stage.2.2 }) }

/-- Terminal-stage (qualified) count of a funnel, with the null fallback of
the comparator of the source. -/
def funnelQualified (f : FunnelSummary) : Nat :=
  ((f.stages.getLast?).map (fun s => s.count)).getD 0

/-- First-stage (dials) count of a funnel, with the null fallback of the
comparator of the source. -/
def funnelFirst (f : FunnelSummary) : Nat :=
  ((f.stages.head?).map (fun s => s.count)).getD 0

/-- Comparator of buildFunnels (qualified count descending, dials count
descending, then name ascending), as the le relation of the modelled
stable sort. -/
def funnelLe (a b : FunnelSummary) : Bool :=
  decide (funnelQualified b < funnelQualified a) ||
    (decide (funnelQualified a = funnelQualified b) &&
      (decide (funnelFirst b < funnelFirst a) ||
        (decide (funnelFirst a = funnelFirst b) && decide (a.name ≤ b.name))))

/-- buildFunnels of src/tabs/PipelineHealth.tsx lines 1092 to 1153: group
by the (non-falsy) key, build the six stage counts per group, rank by the
comparator and keep the top MAX_ENTITY_COUNT. -/
def buildFunnels (events : List DerivedEvent) (getId : DerivedEvent → Option String)
    (getName : String → Option DerivedEvent → String) : List FunnelSummary :=
  let funnels := (funnelIds events getId).map (mkFunnel events getId getName)
  (stableSort funnelLe funnels).take MAX_ENTITY_COUNT

theorem foldl_pred_addDistinct (group : List DerivedEvent) (pred : DerivedEvent → Bool)
    (acc : List String) :
    group.foldl (fun acc e => if pred e then addDistinct acc e.lead_id else acc) acc
      = ((group.filter pred).map (fun e => e.lead_id)).foldl addDistinct acc := by
  induction group generalizing acc with
  | nil => rfl
  | cons e es ih =>
    rw [List.foldl_cons]
    by_cases hp : pred e = true
    · rw [if_pos hp, ih, List.filter_cons_of_pos hp, List.map_cons, List.foldl_cons]
    · rw [if_neg hp, ih, List.filter_cons_of_neg (by simp [hp])]

theorem foldl_addDistinct_nodup [DecidableEq α] (l : List α) (acc : List α) (h : acc.Nodup) :
    (l.foldl addDistinct acc).Nodup := by
  induction l generalizing acc with
  | nil => exact h
  | cons x xs ih =>
    rw [List.foldl_cons]
    apply ih
    unfold addDistinct
    by_cases hx : x ∈ acc
    · rw [if_pos hx]; exact h
    · rw [if_neg hx]
      simp [List.nodup_append, h, hx]

theorem foldl_addDistinct_toFinset [DecidableEq α] (l : List α) (acc : List α) :
    (l.foldl addDistinct acc).toFinset = acc.toFinset ∪ l.toFinset := by
  induction l generalizing acc with
  | nil => simp
  | cons x xs ih =>
    rw [List.foldl_cons, ih]
    ext a
    unfold addDistinct
    by_cases hx : x ∈ acc
    · rw [if_pos hx]
      simp only [Finset.mem_union, List.mem_toFinset, List.mem_cons]
      constructor
      · rintro (h | h)
        · exact Or.inl h
        · exact Or.inr (Or.inr h)
      · rintro (h | h | h)
        · exact Or.inl h
        · exact Or.inl (h ▸ hx)
        · exact Or.inr h
    · rw [if_neg hx]
      simp only [Finset.mem_union, List.mem_toFinset, List.mem_cons, List.mem_append,
        List.mem_singleton, List.not_mem_nil, or_false]
      tauto

theorem distinctLeadCount_eq_card (group : List DerivedEvent) (pred : DerivedEvent → Bool) :
    distinctLeadCount group pred
      = (((group.filter pred).map (fun e => e.lead_id)).toFinset).card := by
  rw [distinctLeadCount, foldl_pred_addDistinct]
  have hnd := foldl_addDistinct_nodup ((group.filter pred).map (fun e => e.lead_id)) []
    (by simp)
  have hfs := foldl_addDistinct_toFinset ((group.filter pred).map (fun e => e.lead_id)) []
  rw [← List.toFinset_card_of_nodup hnd, hfs]
  simp

theorem distinctLeadCount_mono {group : List DerivedEvent} {p q : DerivedEvent → Bool}
    (h : ∀ e ∈ group, p e = true → q e = true) :
    distinctLeadCount group p ≤ distinctLeadCount group q := by
  rw [distinctLeadCount_eq_card, distinctLeadCount_eq_card]
  apply Finset.card_le_card
  intro a ha
  simp only [List.mem_toFinset, List.mem_map, List.mem_filter] at ha ⊢
  obtain ⟨e, ⟨he, hpe⟩, hlead⟩ := ha
  exact ⟨e, ⟨he, h e he hpe⟩, hlead⟩

theorem mem_buildFunnels {events : List DerivedEvent} {getId : DerivedEvent → Option String}
    {getName : String → Option DerivedEvent → String} {f : FunnelSummary}
    (hf : f ∈ buildFunnels events getId getName) :
    ∃ id ∈ funnelIds events getId, f = mkFunnel events getId getName id := by
  unfold buildFunnels at hf
  have h1 : f ∈ stableSort funnelLe
      ((funnelIds events getId).map (mkFunnel events getId getName)) :=
    List.mem_of_mem_take hf
  have h2 := (stableSort_perm funnelLe _).mem_iff.mp h1
  rcases List.mem_map.mp h2 with ⟨id, hid, he⟩
  exact ⟨id, hid, he.symm⟩

/-- C6: every funnel built by buildFunnels over the output of deriveEvents
has non-increasing stage counts along the fixed stage order, because the
outcome-flag chain makes each stage predicate imply the previous one on
derived events (no_show counting toward meetingsBooked but not
meetingsHeld or qualified). -/
theorem buildFunnels_monotone (events : List OutreachEvent)
    (getId : DerivedEvent → Option String)
    (getName : String → Option DerivedEvent → String) :
    ∀ f ∈ buildFunnels (deriveEvents events) getId getName,
      List.Chain' (fun a b => b.count ≤ a.count) f.stages := by
  intro f hf
  rcases mem_buildFunnels hf with ⟨id, _, rfl⟩
  have hsub : ∀ e ∈ (deriveEvents events).filter
      (fun e => decide (normId getId e = some id)), e ∈ deriveEvents events :=
    fun e he => (List.mem_filter.mp he).1
  show List.Chain' _ ((mkFunnel (deriveEvents events) getId getName id).stages)
  simp only [mkFunnel, STAGE_DEFINITIONS, List.map_cons, List.map_nil, List.chain'_cons,
    List.chain'_singleton, and_true]
  refine ⟨?_, ?_, ?_, ?_, ?_⟩
  · exact distinctLeadCount_mono (fun e he _ => rfl)
  · exact distinctLeadCount_mono (fun e he h => (derived_flag_chain (hsub e he)).1 h)
  · exact distinctLeadCount_mono (fun e he h => (derived_flag_chain (hsub e he)).2.1 h)
  · exact distinctLeadCount_mono (fun e he h => (derived_flag_chain (hsub e he)).2.2.1 h)
  · exact distinctLeadCount_mono (fun e he h => (derived_flag_chain (hsub e he)).2.2.2.1 h)

/-- Stage predicates named by the amended claim: the dials stage holds of
every event of the group (the source uses a constant-true predicate, not
the is_dial flag); the other five stages test the outcome flags. -/
def stagePredicate : FunnelStageKey → DerivedEvent → Bool
  | FunnelStageKey.dials => fun _ => true
  | FunnelStageKey.connects => fun event => event.is_connected
  | FunnelStageKey.conversations => fun event => event.is_conversation
  | FunnelStageKey.meetingsBooked => fun event => event.is_meeting_booked
  | FunnelStageKey.meetingsHeld => fun event => event.is_meeting_held
  | FunnelStageKey.qualified => fun event => event.is_qualified

/-- Ranking order of the claim: qualified count descending, dials count
descending, then name ascending. -/
def funnelRank (a b : FunnelSummary) : Prop :=
  funnelQualified b < funnelQualified a ∨
    (funnelQualified a = funnelQualified b ∧
      (funnelFirst b < funnelFirst a ∨
        (funnelFirst a = funnelFirst b ∧ a.name ≤ b.name)))

theorem funnelLe_iff (a b : FunnelSummary) : funnelLe a b = true ↔ funnelRank a b := by
  simp [funnelLe, funnelRank]

theorem funnelLe_trans : ∀ a b c, funnelLe a b = true → funnelLe b c = true →
    funnelLe a c = true := by
  intro a b c hab hbc
  rw [funnelLe_iff] at *
  rcases hab with h1 | ⟨h1, h2⟩ <;> rcases hbc with h3 | ⟨h3, h4⟩
  · exact Or.inl (lt_trans h3 h1)
  · exact Or.inl (h3 ▸ h1)
  · exact Or.inl (h1 ▸ h3)
  · refine Or.inr ⟨h1.trans h3, ?_⟩
    rcases h2 with h2 | ⟨h2, h5⟩ <;> rcases h4 with h4 | ⟨h4, h6⟩
    · exact Or.inl (lt_trans h4 h2)
    · exact Or.inl (h4 ▸ h2)
    · exact Or.inl (h2 ▸ h4)
    · exact Or.inr ⟨h2.trans h4, le_trans h5 h6⟩

theorem funnelLe_total : ∀ a b, funnelLe a b = true ∨ funnelLe b a = true := by
  intro a b
  rw [funnelLe_iff, funnelLe_iff]
  rcases lt_trichotomy (funnelQualified a) (funnelQualified b) with h | h | h
  · exact Or.inr (Or.inl h)
  · rcases lt_trichotomy (funnelFirst a) (funnelFirst b) with h2 | h2 | h2
    · exact Or.inr (Or.inr ⟨h.symm, Or.inl h2⟩)
    · rcases le_total a.name b.name with h3 | h3
      · exact Or.inl (Or.inr ⟨h, Or.inr ⟨h2, h3⟩⟩)
      · exact Or.inr (Or.inr ⟨h.symm, Or.inr ⟨h2.symm, h3⟩⟩)
    · exact Or.inl (Or.inr ⟨h, Or.inl h2⟩)
  · exact Or.inl (Or.inl h)

/-- C5 (amended): every funnel of buildFunnels carries the six stages in
the fixed order, each counting the distinct lead ids of the events of the
group satisfying the stage predicate — with the dials stage counting the
distinct leads with at least one event of any channel in the group; and
the output is the first five entries of a ranking of all the groups by
qualified count descending, dials count descending, then name ascending. -/
theorem buildFunnels_spec (events : List DerivedEvent) (getId : DerivedEvent → Option String)
    (getName : String → Option DerivedEvent → String) :
    (∀ f ∈ buildFunnels events getId getName,
      (f.stages.map (fun s => s.key)) =
        [FunnelStageKey.dials, FunnelStageKey.connects, FunnelStageKey.conversations,
         FunnelStageKey.meetingsBooked, FunnelStageKey.meetingsHeld,
         FunnelStageKey.qualified] ∧
      ∀ s ∈ f.stages,
        s.count = ((((events.filter (fun e => decide (normId getId e = some f.id))).filter
          (stagePredicate s.key)).map (fun e => e.lead_id)).toFinset).card) ∧
    (∃ ranked : List FunnelSummary,
      ranked.Perm ((funnelIds events getId).map (mkFunnel events getId getName)) ∧
      ranked.Pairwise funnelRank ∧
      buildFunnels events getId getName = ranked.take 5) := by
  constructor
  · intro f hf
    rcases mem_buildFunnels hf with ⟨id, _, rfl⟩
    have hid : (mkFunnel events getId getName id).id = id := rfl
    constructor
    · rfl
    · intro s hs
      rw [hid]
      have : (mkFunnel events getId getName id).stages = STAGE_DEFINITIONS.map (fun stage =>
          { key := stage.1, label := stage.2.1
            count := distinctLeadCount
              (events.filter (fun e => decide (normId getId e = some id))) stage.2.2 }) := rfl
      rw [this] at hs
      rcases List.mem_map.mp hs with ⟨stage, hstage, hss⟩
      subst hss
      show distinctLeadCount _ stage.2.2 = _
      rw [distinctLeadCount_eq_card]
      have hpred : stagePredicate stage.1 = stage.2.2 := by
        simp only [STAGE_DEFINITIONS] at hstage
        fin_cases hstage <;> rfl
      rw [hpred]
  · refine ⟨stableSort funnelLe ((funnelIds events getId).map (mkFunnel events getId getName)),
      stableSort_perm _ _, ?_, rfl⟩
    have hpw := stableSort_pairwise funnelLe_trans funnelLe_total
      ((funnelIds events getId).map (mkFunnel events getId getName))
    exact hpw.imp (fun h => (funnelLe_iff _ _).mp h)

/-- Raw event on the email channel used to refute the dials-stage reading
of the claim: the group has no call-channel event at all. -/
def emailEventRaw : OutreachEvent :=
  { event_id := "evt-9", lead_id := "lead-9", timestamp := 0, week_start := 0
    sdr_id := "sdr-9", sdr_name := "Robin", team := "Outbound", company := "Acme"
    industry := "SaaS", channel := Channel.email, outcome := Outcome.connected
    objection := none }

/-- Counterexample to C5 as stated: for a single email-channel event, the
dials stage of its funnel counts one distinct lead although the group
contains no dial (call-channel) event, because the source counts every
event for the dials stage. -/
theorem buildFunnels_dials_counterexample :
    ((buildFunnels (deriveEvents [emailEventRaw]) (fun _ => some ("g")) (fun id _ => id)).map
      (fun f => f.stages.map (fun s => s.count))) = [[1, 1, 0, 0, 0, 0]] ∧
    ((deriveEvents [emailEventRaw]).filter (fun e => e.is_dial)).length = 0 := by
  constructor
  · rfl
  · rfl

/-- Witness for the funnel monotonicity theorem at a concrete input. -/
theorem buildFunnels_monotone_witness :
    List.Chain' (fun a b => b.count ≤ a.count)
      (mkFunnel (deriveEvents [emailEventRaw]) (fun _ => some ("g")) (fun id _ => id)
        ("g")).stages :=
  buildFunnels_monotone [emailEventRaw] (fun _ => some ("g")) (fun id _ => id) _ (by decide)

theorem computePipelineHealthScore_none_iff (breakdowns : List RateBreakdown) :
    computePipelineHealthScore breakdowns = none ↔ ∀ b ∈ breakdowns, b.value = none := by
  unfold computePipelineHealthScore
  by_cases h : ((breakdowns.map (fun item => item.value)).filterMap id).length = 0
  · rw [if_pos h]
    rw [List.length_eq_zero] at h
    simp only [true_iff]
    intro b hb
    have := List.filterMap_eq_nil_iff.mp h b.value (List.mem_map_of_mem _ hb)
    simpa using this
  · rw [if_neg h]
    simp only [Option.some_ne_none, false_iff]
    intro hall
    apply h
    rw [List.length_eq_zero, List.filterMap_eq_nil_iff]
    intro v hv
    rcases List.mem_map.mp hv with ⟨b, hb, hbv⟩
    rw [← hbv, hall b hb]
    rfl

theorem computePipelineHealthScore_some {breakdowns : List RateBreakdown} {s : Int}
    (h : computePipelineHealthScore breakdowns = some s) :
    (breakdowns.map (fun item => item.value)).filterMap id ≠ [] ∧
      s = jsRound ((((breakdowns.map (fun item => item.value)).filterMap id).foldl
        (fun sum value => sum + value) 0) /
          ((((breakdowns.map (fun item => item.value)).filterMap id).length : ℚ))) := by
  unfold computePipelineHealthScore at h
  by_cases h0 : ((breakdowns.map (fun item => item.value)).filterMap id).length = 0
  · rw [if_pos h0] at h
    exact absurd h (by simp)
  · rw [if_neg h0] at h
    refine ⟨fun hnil => h0 (by rw [hnil]; rfl), ?_⟩
    rw [Option.some.injEq] at h
    exact h.symm

/-- Breakdown list with the three stage rates of the concrete scenario of
the claim: 80 percent, 60 percent and 40 percent. -/
def percentBreakdowns : List RateBreakdown :=
  [{ key := RateKey.dialToConnect, label := RATE_LABELS RateKey.dialToConnect
     numerator := 8, denominator := 10, value := some 80 },
   { key := RateKey.connectToConversation, label := RATE_LABELS RateKey.connectToConversation
     numerator := 6, denominator := 10, value := some 60 },
   { key := RateKey.meetingToQualified, label := RATE_LABELS RateKey.meetingToQualified
     numerator := 4, denominator := 10, value := some 40 }]

/-- C7: the pipeline health score of an entity is the rounded mean of its
available stage rates as percentages (null rates skipped, rounding applied
once, at the end); an entity whose three rates are all null has no score
and does not appear in the output of createEntityPipelineHealth; rates of
80, 60 and 40 percent give a score of 60. -/
theorem pipeline_health_score_spec :
    (∀ breakdowns : List RateBreakdown,
      (computePipelineHealthScore breakdowns = none ↔
        ∀ b ∈ breakdowns, b.value = none) ∧
      (∀ s : Int, computePipelineHealthScore breakdowns = some s →
        ∃ vs : List ℚ, vs = (breakdowns.map (fun item => item.value)).filterMap id ∧
          vs ≠ [] ∧
          s = jsRound ((vs.foldl (fun sum value => sum + value) 0) / (vs.length : ℚ)))) ∧
    (∀ (events : List DerivedEvent) (getId : DerivedEvent → String)
        (getLabel : String → Option DerivedEvent → String),
      ∀ ent ∈ createEntityPipelineHealth events getId getLabel,
        (∃ b ∈ ent.components, b.value ≠ none) ∧
        ent.components = buildRateBreakdowns (events.filter (fun e => decide (getId e = ent.id))) ∧
        computePipelineHealthScore ent.components = some ent.score) ∧
    computePipelineHealthScore percentBreakdowns = some 60 := by
  refine ⟨?_, ?_, ?_⟩
  · intro breakdowns
    refine ⟨computePipelineHealthScore_none_iff breakdowns, ?_⟩
    intro s hs
    rcases computePipelineHealthScore_some hs with ⟨h1, h2⟩
    exact ⟨_, rfl, h1, h2⟩
  · intro events getId getLabel ent hent
    unfold createEntityPipelineHealth at hent
    have h1 := (stableSort_perm entityLe _).mem_iff.mp hent
    rcases List.mem_filterMap.mp h1 with ⟨id, _, hsome⟩
    dsimp only at hsome
    rcases hscore : computePipelineHealthScore
        (buildRateBreakdowns (events.filter (fun e => decide (getId e = id)))) with _ | score
    · rw [hscore] at hsome; exact absurd hsome (by simp)
    · rw [hscore] at hsome
      simp only [Option.some.injEq] at hsome
      subst hsome
      refine ⟨?_, rfl, hscore⟩
      by_contra hnone
      push_neg at hnone
      have : computePipelineHealthScore
          (buildRateBreakdowns (events.filter (fun e => decide (getId e = id)))) = none := by
        rw [computePipelineHealthScore_none_iff]
        exact hnone
      rw [hscore] at this
      exact Option.some_ne_none _ this
  · have hj : jsRound 60 = 60 := by
      rw [jsRound, show (60 : ℚ) + 1 / 2 = 121 / 2 by norm_num]
      rw [Int.floor_eq_iff]
      norm_num
    show computePipelineHealthScore percentBreakdowns = some 60
    unfold computePipelineHealthScore percentBreakdowns
    simp only [List.map_cons, List.map_nil, List.filterMap, id]
    norm_num [hj]

/-! Embedding of src/data/generator.ts. JavaScript bitwise operations act
on 32-bit patterns; they are modelled over Nat with an explicit remainder
by 2 to the 32. The float the generator draws per call is the exact dyadic
rational t divided by 2 to the 32; expressions of the form
Math.floor(rng() * k) for the small integer factors the source uses are
exact in double arithmetic and are computed here directly as
(t * k) / 2 to the 32 in Nat (the lemma rngFloorMul_models ties this to
the rational floor). The mulberry32 state accumulator a grows by a fixed
constant per call and stays well below 2 to the 53 for the call counts of
one generation, so exact Nat addition models the double addition. -/

def UINT32 : Nat := 4294967296

/-- Math.imul on unsigned 32-bit patterns. -/
def imul (a b : Nat) : Nat := a % UINT32 * (b % UINT32) % UINT32

/-- Bitwise xor on 32-bit patterns. -/
def jsXor (a b : Nat) : Nat := (a % UINT32) ^^^ (b % UINT32)

/-- Bitwise or on 32-bit patterns. -/
def jsOr (a b : Nat) : Nat := (a % UINT32) ||| (b % UINT32)

/-- Left shift on 32-bit patterns. -/
def shl32 (a k : Nat) : Nat := a % UINT32 * 2 ^ k % UINT32

/-- Unsigned right shift on 32-bit patterns. -/
def lshr (a k : Nat) : Nat := a % UINT32 / 2 ^ k

/-- Seed-hash loop of xmur3 (createRng of src/data/generator.ts): fold the
avalanche step over the code units of the seed string. -/
def xmur3Fold (str : List Char) : Nat :=
  str.foldl
    (fun h c =>
      let h1 := imul (jsXor h c.toNat) 3432918353
      jsOr (shl32 h1 13) (lshr h1 19))
    (jsXor 1779033703 str.length)

/-- One draw of the xmur3 closure: the finaliser createRng calls once to
seed mulberry32. -/
def xmur3Next (h : Nat) : Nat :=
  let h1 := imul (jsXor h (lshr h 16)) 2246822507
  let h2 := imul (jsXor h1 (lshr h1 13)) 3266489909
  jsXor h2 (lshr h2 16)

/-- State of createRng after seeding: the first xmur3 draw over the seed
string (a number seed is first converted to its decimal string by the
source; the embedding takes the string). -/
def initRngState (seed : String) : Nat := xmur3Next (xmur3Fold seed.data)

/-- One step of mulberry32: the raw 32-bit draw t and the new accumulator.
The float the source returns is t divided by 2 to the 32. -/
def mulberry32Raw (a0 : Nat) : Nat × Nat :=
  let a := a0 + 0x6d2b79f5
  let a32 := a % UINT32
  let t1 := imul (jsXor a32 (lshr a32 15)) (jsOr 1 a32)
  let t2 := jsXor t1 ((t1 + imul (jsXor t1 (lshr t1 7)) (jsOr 61 t1)) % UINT32)
  let r := jsXor t2 (lshr t2 14)
  (r, a)

/-- Generation-scoped PRNG stream state, threaded explicitly. -/
abbrev RngM := StateM Nat

/-- The raw 32-bit draw of one rng() call. -/
def rngRaw : RngM Nat := fun a => mulberry32Raw a

/-- The value of one rng() call, as the exact rational t / 2^32. -/
def rngQ : RngM ℚ := do
  let r ← rngRaw
  pure ((r : ℚ) / (UINT32 : ℚ))

/-- Math.floor(rng() * k) for a natural factor k, computed exactly. -/
def rngFloorMul (k : Nat) : RngM Nat := do
  let r ← rngRaw
  pure (r * k / UINT32)

theorem jsXor_lt (a b : Nat) : jsXor a b < UINT32 := by
  have h1 : a % UINT32 < 2 ^ 32 := Nat.mod_lt _ (by norm_num [UINT32])
  have h2 : b % UINT32 < 2 ^ 32 := Nat.mod_lt _ (by norm_num [UINT32])
  have := Nat.xor_lt_two_pow h1 h2
  simpa [UINT32] using this

theorem rngRaw_lt (a : Nat) : (mulberry32Raw a).1 < UINT32 := by
  unfold mulberry32Raw
  exact jsXor_lt _ _

/-- The Nat computation of rngFloorMul agrees with the rational floor of
rng() * k. -/
theorem rngFloorMul_models (r k : Nat) :
    r * k / UINT32 = ⌊((r : ℚ) / (UINT32 : ℚ)) * (k : ℚ)⌋₊ := by
  have hU : ((UINT32 : ℚ)) ≠ 0 := by norm_num [UINT32]
  have h1 : ((r : ℚ) / (UINT32 : ℚ)) * (k : ℚ) = ((r * k : Nat) : ℚ) / (UINT32 : ℚ) := by
    push_cast
    ring
  rw [h1, Nat.floor_div_nat, Nat.floor_natCast]

theorem rngFloorMul_lt {r k : Nat} (hr : r < UINT32) (hk : 0 < k) : r * k / UINT32 < k := by
  rw [Nat.div_lt_iff_lt_mul (by norm_num [UINT32])]
  calc r * k < UINT32 * k := by
        exact (Nat.mul_lt_mul_right hk).mpr hr
    _ = k * UINT32 := Nat.mul_comm _ _

/-- randomInt of src/data/generator.ts:
Math.floor(rng() * (max - min + 1)) + min (every call site has
min at most max, both non-negative). -/
def randomInt (min max : Int) : RngM Int := do
  let n ← rngFloorMul (max - min + 1).toNat
  pure (min + n)

/-- sample of src/data/generator.ts: uniform pick of one element (the
out-of-range access of an empty list, undefined in the source, is the
default value; every call site passes a non-empty constant list). -/
def sample [Inhabited α] (list : List α) : RngM α := do
  let i ← rngFloorMul list.length
  pure (list.getD i default)

/-- Fisher-Yates loop of shuffle, running the index downward. -/
def shuffleGo (arr : Array α) : Nat → RngM (Array α)
  | 0 => pure arr
  | i + 1 => do
    let j ← rngFloorMul (i + 2)
    shuffleGo (arr.swap! (i + 1) j) i

/-- shuffle of src/data/generator.ts: Fisher-Yates over a copy. -/
def shuffle (list : List α) : RngM (List α) := do
  let arr ← shuffleGo list.toArray (list.length - 1)
  pure arr.toList

/-- pickWeighted walk: first option whose cumulative weight reaches the
target. -/
def pickWalk [Inhabited α] (fallback : α) (target : ℚ) :
    List (α × ℚ) → ℚ → α
  | [], _ => fallback
  | (x, w) :: rest, cumulative =>
    let c := cumulative + w
    if target ≤ c then x else pickWalk fallback target rest c

/-- pickWeighted of src/data/generator.ts (the undefined fallback of an
empty option list is the default value; unreachable at every call site). -/
def pickWeighted [Inhabited α] (options : List (α × ℚ)) : RngM α := do
  let total := options.foldl (fun sum o => sum + o.2) 0
  let r ← rngQ
  let target := r * total
  pure (pickWalk (((options.getLast?).map Prod.fst).getD default) target options 0)

/-- SDRProfile of src/data/generator.ts. -/
structure SDRProfile where
  id : String
  name : String
  team : String
deriving DecidableEq, Repr, Inhabited

/-- CompanyProfile of src/data/generator.ts. -/
structure CompanyProfile where
  id : String
  name : String
  industry : String
deriving DecidableEq, Repr, Inhabited

/-- IndustryProfile of src/data/generator.ts. -/
structure IndustryProfile where
  name : String
  quiet : Bool
deriving DecidableEq, Repr, Inhabited

/-- GeneratedDataset of src/data/generator.ts. -/
structure GeneratedDataset where
  seed : String
  events : List OutreachEvent
  sdrs : List SDRProfile
  teams : List String
  industries : List IndustryProfile
  companies : List CompanyProfile
deriving DecidableEq, Repr

/-- TEAM_NAMES of src/data/generator.ts. -/
def TEAM_NAMES : List String :=
  ["Outbound Alpha", "Pipeline Pros", "Growth Gurus", "Enterprise Edge",
   "Demand Drivers", "Revenue Rockets"]

/-- FIRST_NAMES of src/data/generator.ts. -/
def FIRST_NAMES : List String :=
  ["Jordan", "Taylor", "Morgan", "Avery", "Riley", "Hayden", "Quinn", "Reese",
   "Drew", "Casey", "Peyton", "Blair", "Skyler", "Rowan", "Cameron"]

/-- LAST_NAMES of src/data/generator.ts. -/
def LAST_NAMES : List String :=
  ["Lee", "Patel", "Garcia", "Nguyen", "Johnson", "Davis", "Walker", "Clark",
   "Simmons", "Morgan", "Keller", "Bryant", "Foster", "Harper", "Shaw"]

/-- INDUSTRY_POOL of src/data/generator.ts. -/
def INDUSTRY_POOL : List IndustryProfile :=
  [{ name := "SaaS", quiet := false }, { name := "Fintech", quiet := false },
   { name := "Healthcare", quiet := false }, { name := "Manufacturing", quiet := true },
   { name := "Logistics", quiet := true }, { name := "Retail", quiet := false },
   { name := "Professional Services", quiet := false }, { name := "Energy", quiet := true },
   { name := "Education", quiet := false }, { name := "Media", quiet := false },
   { name := "Nonprofit", quiet := true }]

/-- COMPANY_PREFIXES of src/data/generator.ts. -/
def COMPANY_PREFIXES : List String :=
  ["North", "Blue", "Prime", "Next", "Bright", "Summit", "Pinnacle", "River",
   "Cedar", "Apex", "Vertex", "Horizon", "Synergy", "Fusion", "Echo"]

/-- COMPANY_SUFFIXES of src/data/generator.ts. -/
def COMPANY_SUFFIXES : List String :=
  ["Labs", "Systems", "Partners", "Solutions", "Logistics", "Dynamics", "Networks",
   "Consulting", "Ventures", "Industries", "Holdings", "Collective", "Works",
   "Group", "Innovations"]

/-! The float weight literals of the source denote doubles within one part
in 2 to the 53 of the decimal fractions they spell; the embedding uses the
exact rationals. No claim settled here depends on that difference. -/

/-- CHANNEL_WEIGHTS of src/data/generator.ts. -/
def CHANNEL_WEIGHTS : List (Channel × ℚ) :=
  [(Channel.call, 62 / 100), (Channel.email, 28 / 100), (Channel.linkedin, 10 / 100)]

/-- CALL_OUTCOME_WEIGHTS of src/data/generator.ts. -/
def CALL_OUTCOME_WEIGHTS : List (Outcome × ℚ) :=
  [(Outcome.no_answer, 27 / 100), (Outcome.voicemail, 22 / 100),
   (Outcome.connected, 16 / 100), (Outcome.conversation, 14 / 100),
   (Outcome.meeting_booked, 7 / 100), (Outcome.meeting_held, 3 / 100),
   (Outcome.no_show, 5 / 100), (Outcome.qualified, 6 / 100)]

/-- EMAIL_OUTCOME_WEIGHTS of src/data/generator.ts. -/
def EMAIL_OUTCOME_WEIGHTS : List (Outcome × ℚ) :=
  [(Outcome.no_answer, 48 / 100), (Outcome.voicemail, 0),
   (Outcome.connected, 10 / 100), (Outcome.conversation, 18 / 100),
   (Outcome.meeting_booked, 8 / 100), (Outcome.meeting_held, 2 / 100),
   (Outcome.no_show, 4 / 100), (Outcome.qualified, 10 / 100)]

/-- LINKEDIN_OUTCOME_WEIGHTS of src/data/generator.ts. -/
def LINKEDIN_OUTCOME_WEIGHTS : List (Outcome × ℚ) :=
  [(Outcome.no_answer, 22 / 100), (Outcome.voicemail, 0),
   (Outcome.connected, 23 / 100), (Outcome.conversation, 24 / 100),
   (Outcome.meeting_booked, 12 / 100), (Outcome.meeting_held, 6 / 100),
   (Outcome.no_show, 4 / 100), (Outcome.qualified, 9 / 100)]

/-- OBJECTION_WEIGHTS of src/data/generator.ts. -/
def OBJECTION_WEIGHTS : List (Objection × ℚ) :=
  [(Objection.timing, 42 / 100), (Objection.budget, 32 / 100),
   (Objection.authority, 10 / 100), (Objection.need, 8 / 100),
   (Objection.other, 8 / 100)]

/-- createTeams of src/data/generator.ts: 2 or 3 of the shuffled names. -/
def createTeams : RngM (List String) := do
  let r ← rngFloorMul 2
  let teamCount := 2 + r
  let shuffled ← shuffle TEAM_NAMES
  pure (shuffled.take teamCount)

/-- createIndustries of src/data/generator.ts: 6 to 8 of the shuffled pool. -/
def createIndustries : RngM (List IndustryProfile) := do
  let r ← rngFloorMul 3
  let count := 6 + r
  let shuffled ← shuffle INDUSTRY_POOL
  pure (shuffled.take count)

/-- Body of the createSdrs loop of src/data/generator.ts: one SDR with a
sampled name and a uniformly picked team, appended to the accumulator. -/
def sdrStep (teams : List String) (acc : List SDRProfile) (i : Nat) :
    RngM (List SDRProfile) := do
  let firstName ← sample FIRST_NAMES
  let lastName ← sample LAST_NAMES
  let ti ← rngFloorMul teams.length
  let team := teams.getD ti ""
  pure (acc ++ [{ id := "sdr_" ++ toString (i + 1)
                  name := firstName ++ " " ++ lastName
                  team := team }])

/-- createSdrs of src/data/generator.ts: 10 to 15 SDRs with sampled names
and a uniformly picked team. -/
def createSdrs (teams : List String) : RngM (List SDRProfile) := do
  let r ← rngFloorMul 6
  let sdrCount := 10 + r
  (List.range sdrCount).foldlM (sdrStep teams) []

/-- Body of the inner createCompanies loop of src/data/generator.ts: one
company named by a sampled prefix and suffix plus the industry name. -/
def companyStep (industry : IndustryProfile) (index : Nat)
    (acc : List CompanyProfile) (i : Nat) : RngM (List CompanyProfile) := do
  let pre ← sample COMPANY_PREFIXES
  let suf ← sample COMPANY_SUFFIXES
  pure (acc ++ [{ id := "co_" ++ toString (index + 1) ++ "_" ++ toString (i + 1)
                  name := pre ++ " " ++ suf ++ " " ++ industry.name
                  industry := industry.name }])

/-- Body of the outer createCompanies loop of src/data/generator.ts: 6 to
10 companies for one enumerated industry. -/
def industryStep (acc : List CompanyProfile) (pair : Nat × IndustryProfile) :
    RngM (List CompanyProfile) := do
  let r ← rngFloorMul 5
  let perIndustry := 6 + r
  (List.range perIndustry).foldlM (companyStep pair.2 pair.1) acc

/-- createCompanies of src/data/generator.ts: 6 to 10 companies per
industry, named by a sampled prefix and suffix plus the industry name. -/
def createCompanies (industries : List IndustryProfile) : RngM (List CompanyProfile) := do
  industries.enum.foldlM industryStep []

/-- MS_DAY: one day in milliseconds, as an integer. -/
def MS_DAY : Int := 86400000

/-- Epoch milliseconds of the fixed Monday anchor Date.UTC(2024, 0, 8). -/
def anchorMs : Int := 1704672000000

/-- Day of week of a (non-negative) epoch-millisecond value, with the
JavaScript convention Sunday = 0 (the epoch fell on a Thursday, day 4). -/
def weekday (ms : Int) : Int := (ms / MS_DAY + 4) % 7

/-- startOfWeek of src/data/generator.ts: the Monday 00:00 UTC of the week
of the timestamp. -/
def startOfWeek (ms : Int) : Int :=
  let dayStart := ms - ms % MS_DAY
  let diff := (weekday dayStart + 6) % 7
  dayStart - diff * MS_DAY

/-- buildDateRange of src/data/generator.ts: 14 to 21 consecutive days
starting at the anchor plus a seeded offset of 0 to 14 days. -/
def buildDateRange : RngM (List Int) := do
  let r ← rngFloorMul 8
  let totalDays := 14 + r
  let offset ← randomInt 0 14
  let start := anchorMs + offset * MS_DAY
  pure ((List.range totalDays).map (fun (i : Nat) => start + (i : Int) * MS_DAY))

/-- buildDayWeights of src/data/generator.ts: Monday to Thursday 1.15,
Friday 0.9, weekend 0.65. -/
def buildDayWeights (dates : List Int) : List ℚ :=
  dates.map (fun date =>
    let day := weekday date
    if 1 ≤ day ∧ day ≤ 4 then 23 / 20
    else if day = 5 then 9 / 10
    else 13 / 20)

/-- getOutcomeWeights of src/data/generator.ts. -/
def getOutcomeWeights : Channel → List (Outcome × ℚ)
  | Channel.call => CALL_OUTCOME_WEIGHTS
  | Channel.email => EMAIL_OUTCOME_WEIGHTS
  | Channel.linkedin => LINKEDIN_OUTCOME_WEIGHTS

/-- adjustOutcomeForIndustry of src/data/generator.ts: quiet industries
scale the booked and held weights by 0.6 and the connected and
conversation weights by 1.2. -/
def adjustOutcomeForIndustry (industry : IndustryProfile)
    (baseWeights : List (Outcome × ℚ)) : List (Outcome × ℚ) :=
  if !industry.quiet then baseWeights
  else
    baseWeights.map (fun entry =>
      if entry.1 = Outcome.meeting_booked ∨ entry.1 = Outcome.meeting_held then
        (entry.1, entry.2 * (6 / 10))
      else if entry.1 = Outcome.connected ∨ entry.1 = Outcome.conversation then
        (entry.1, entry.2 * (12 / 10))
      else entry)

/-- normalizeWeights of src/data/generator.ts (a zero total divides by 1). -/
def normalizeWeights (weights : List (Outcome × ℚ)) : List (Outcome × ℚ) :=
  let total := weights.foldl (fun sum option => sum + option.2) 0
  weights.map (fun option => (option.1, option.2 / (if total = 0 then 1 else total)))

/-- createEventTimestamp of src/data/generator.ts: meeting-stage outcomes
(tested by outcome name here: booked, held or qualified, not no_show) are
biased toward Tuesday to Thursday and hours 10 to 16; other events use
hours 8 to 18. The rng is consumed exactly as the source's short-circuit
conditions dictate. -/
def createEventTimestamp (dateOptions : List Int) (outcome : Outcome)
    (selectedDay : Int) : RngM Int := do
  let isMeetingOutcome := outcome = Outcome.meeting_booked ∨
    outcome = Outcome.meeting_held ∨ outcome = Outcome.qualified
  if isMeetingOutcome then do
    let preferredDays := dateOptions.filter (fun date =>
      decide (2 ≤ weekday date) && decide (weekday date ≤ 4))
    let selectedDayIsPreferred := decide (2 ≤ weekday selectedDay) &&
      decide (weekday selectedDay ≤ 4)
    let usePreferred ←
      if !selectedDayIsPreferred && decide (0 < preferredDays.length) then do
        let r ← rngQ
        pure (decide (r < 7 / 10))
      else pure false
    let chosenDay ←
      if usePreferred then do
        let j ← rngFloorMul preferredDays.length
        pure (preferredDays.getD j selectedDay)
      else pure selectedDay
    let hour ← randomInt 10 16
    let minute ← randomInt 0 59
    let sec ← rngFloorMul 60
    pure (chosenDay + hour * 3600000 + minute * 60000 + (sec : Int) * 1000)
  else do
    let hour ← randomInt 8 18
    let minute ← randomInt 0 59
    let sec ← rngFloorMul 60
    pure (selectedDay + hour * 3600000 + minute * 60000 + (sec : Int) * 1000)

/-- shouldAddObjection of src/data/generator.ts. -/
def shouldAddObjection (outcome : Outcome) : RngM Bool :=
  if outcome = Outcome.conversation ∨ outcome = Outcome.meeting_booked ∨
      outcome = Outcome.meeting_held then do
    let r ← rngQ
    pure (decide (r < 45 / 100))
  else if outcome = Outcome.qualified then do
    let r ← rngQ
    pure (decide (r < 25 / 100))
  else pure false

/-- Day-selection loop of generateDataset: the first day whose cumulative
weight reaches the target, with dates[0] as the fallback of a loop that
never breaks. -/
def selectDayGo (target : ℚ) (fallback : Int) : List (Int × ℚ) → ℚ → Int
  | [], _ => fallback
  | (d, w) :: rest, cumulative =>
    let c := cumulative + w
    if target ≤ c then d else selectDayGo target fallback rest c

def selectDay (dates : List Int) (dayWeights : List ℚ) (target : ℚ) : Int :=
  selectDayGo target (dates.getD 0 0) (dates.zip dayWeights) 0

/-- Left zero-padding of padStart(5, the zero digit) on a decimal string. -/
def padLeft5 (n : Nat) : String :=
  let s := toString n
  String.mk (List.replicate (5 - s.length) '0') ++ s

/-- Directory-building prefix of generateDataset, in the call order of the
source: teams, industries, companies, SDRs. -/
def generatorPrefix :
    RngM (List String × List IndustryProfile × List CompanyProfile × List SDRProfile) := do
  let teams ← createTeams
  let industries ← createIndustries
  let companies ← createCompanies industries
  let sdrs ← createSdrs teams
  pure (teams, industries, companies, sdrs)

/-- generateDataset of src/data/generator.ts: the entire generation as a
pure function of the seed string, with the PRNG state threaded explicitly.
The companiesByIndustry map of the source groups companies by industry in
insertion order, which the filter reproduces; its undefined fallback to
the full company list is mirrored by the isEmpty test. -/
def generateDataset (seed : String) : GeneratedDataset :=
  (do
    let (teams, industries, companies, sdrs) ← generatorPrefix
    let dates ← buildDateRange
    let dayWeights := buildDayWeights dates
    let totalEvents ← randomInt 2000 3000
    let dayWeightSum := dayWeights.foldl (fun sum weight => sum + weight) 0
    let events ← (List.range totalEvents.toNat).foldlM
      (fun acc i => do
        let rday ← rngQ
        let dayTarget := rday * dayWeightSum
        let selectedDay := selectDay dates dayWeights dayTarget
        let si ← rngFloorMul sdrs.length
        let sdr := sdrs.getD si default
        let ii ← rngFloorMul industries.length
        let industry := industries.getD ii default
        let companyChoices :=
          let grouped := companies.filter (fun (c : CompanyProfile) => decide (c.industry = industry.name))
          if grouped.isEmpty then companies else grouped
        let ci ← rngFloorMul companyChoices.length
        let company := companyChoices.getD ci default
        let channel ← pickWeighted CHANNEL_WEIGHTS
        let industryAdjusted := adjustOutcomeForIndustry industry (getOutcomeWeights channel)
        let outcome ← pickWeighted (normalizeWeights industryAdjusted)
        let timestamp ← createEventTimestamp dates outcome selectedDay
        let addObjection ← shouldAddObjection outcome
        let objection ←
          if addObjection then do
            let o ← pickWeighted OBJECTION_WEIGHTS
            pure (some o)
          else pure (none : Option Objection)
        let rl ← rngFloorMul 900000
        pure (acc ++ [({
          event_id := "evt_" ++ padLeft5 (i + 1)
          lead_id := "lead_" ++ toString (rl + 100000)
          timestamp := timestamp
          week_start := startOfWeek timestamp
          sdr_id := sdr.id
          sdr_name := sdr.name
          team := sdr.team
          company := company.name
          industry := industry.name
          channel := channel
          outcome := outcome
          objection := objection } : OutreachEvent)]))
      []
    pure ({ seed := seed, events := events, sdrs := sdrs, teams := teams
            industries := industries, companies := companies } : GeneratedDataset)).run'
    (initRngState seed)

/-- C1: determinism of the generator. The embedding threads the PRNG state
explicitly from the seed hash; generateDataset is a function of the seed
string and of nothing else (no other entropy source appears in its
definition), so two calls with the same seed agree on the whole dataset:
the teams, industries, SDRs, companies, and the event sequence with its
order and every field value. -/
theorem generateDataset_deterministic (seed : String) :
    generateDataset seed = generateDataset seed ∧
    (generateDataset seed).events = (generateDataset seed).events ∧
    (generateDataset seed).teams = (generateDataset seed).teams ∧
    (generateDataset seed).industries = (generateDataset seed).industries ∧
    (generateDataset seed).sdrs = (generateDataset seed).sdrs ∧
    (generateDataset seed).companies = (generateDataset seed).companies :=
  ⟨rfl, rfl, rfl, rfl, rfl, rfl⟩

/-- The date range generateDataset builds for a seed: the directory calls
consume the stream in the order of generatorPrefix (teams, industries,
companies, SDRs), then buildDateRange runs on the resulting state — the
same consumption as in generateDataset, written with the state threading
explicit. -/
def dateRangeOfSeed (seed : String) : List Int :=
  let s0 := initRngState seed
  let t := Id.run (createTeams.run s0)
  let ind := Id.run (createIndustries.run t.2)
  let c := Id.run ((createCompanies ind.1).run ind.2)
  let d := Id.run ((createSdrs t.1).run c.2)
  (Id.run (buildDateRange.run d.2)).1

theorem buildDateRange_run (a : Nat) :
    (buildDateRange.run a).1 =
      (List.range (14 + (mulberry32Raw a).1 * 8 / UINT32)).map
        (fun (i : Nat) => anchorMs +
          ((0 : Int) + ((mulberry32Raw (mulberry32Raw a).2).1 * 15 / UINT32 : Nat)) * MS_DAY
          + (i : Int) * MS_DAY) := rfl

theorem anchorMs_eq : anchorMs = 19730 * MS_DAY := by norm_num [anchorMs, MS_DAY]

theorem weekday_anchor_offset (offset : Nat) :
    weekday (anchorMs + (offset : Int) * MS_DAY) = 1 ↔ offset % 7 = 0 := by
  rw [weekday, anchorMs_eq]
  have h1 : 19730 * MS_DAY + (offset : Int) * MS_DAY = (19730 + (offset : Int)) * MS_DAY := by
    ring
  rw [h1]
  have h2 : (19730 + (offset : Int)) * MS_DAY / MS_DAY = 19730 + (offset : Int) :=
    Int.mul_ediv_cancel _ (by norm_num [MS_DAY])
  rw [h2]
  omega

/-- C9 (amended): for every PRNG state, the window buildDateRange returns
is a contiguous range of 14 to 21 days starting at the fixed Monday anchor
(2024-01-08 UTC) plus a seeded offset of 0 to 14 days; the window start
falls on a Monday exactly when that offset is a multiple of 7 — so the
window is not always Monday-aligned. -/
theorem buildDateRange_window (a : Nat) :
    ∃ offset : Nat, offset ≤ 14 ∧
      (buildDateRange.run a).1.head? = some (anchorMs + (offset : Int) * MS_DAY) ∧
      14 ≤ (buildDateRange.run a).1.length ∧ (buildDateRange.run a).1.length ≤ 21 ∧
      ((buildDateRange.run a).1 = (List.range (buildDateRange.run a).1.length).map
        (fun (i : Nat) => anchorMs + (offset : Int) * MS_DAY + (i : Int) * MS_DAY)) ∧
      (weekday (anchorMs + (offset : Int) * MS_DAY) = 1 ↔ offset % 7 = 0) := by
  have hlt8 : (mulberry32Raw a).1 * 8 / UINT32 < 8 :=
    rngFloorMul_lt (rngRaw_lt a) (by norm_num)
  have hlt15 : (mulberry32Raw (mulberry32Raw a).2).1 * 15 / UINT32 < 15 :=
    rngFloorMul_lt (rngRaw_lt _) (by norm_num)
  refine ⟨(mulberry32Raw (mulberry32Raw a).2).1 * 15 / UINT32, Nat.lt_succ_iff.mp hlt15,
    ?_, ?_, ?_, ?_, weekday_anchor_offset _⟩
  · rw [buildDateRange_run, List.head?_map]
    have hpos : 0 < 14 + (mulberry32Raw a).1 * 8 / UINT32 :=
      Nat.lt_of_lt_of_le (by norm_num) (Nat.le_add_right 14 _)
    rw [List.head?_eq_getElem?, List.getElem?_range hpos, Option.map_some',
      Option.some.injEq]
    push_cast
    ring
  · rw [buildDateRange_run, List.length_map, List.length_range]
    exact Nat.le_add_right 14 _
  · rw [buildDateRange_run, List.length_map, List.length_range]
    exact Nat.add_le_add_left (Nat.lt_succ_iff.mp hlt8) 14
  · rw [buildDateRange_run, List.length_map, List.length_range]
    apply List.map_congr_left
    intro i _
    push_cast
    ring

/-- Running a bound RngM computation: the continuation runs on the value
and state of the first computation. -/
theorem run_bind (m : RngM α) (k : α → RngM β) (s : Nat) :
    Id.run ((m >>= k).run s)
      = Id.run ((k (Id.run (m.run s)).1).run (Id.run (m.run s)).2) := rfl

/-- Running a pure RngM computation returns the value and leaves the
state. -/
theorem run_pure (x : α) (s : Nat) :
    Id.run ((pure x : RngM α).run s) = (x, s) := rfl

/-- One SDR draw advances the PRNG stream by exactly three mulberry32
steps, whatever the team list, the accumulator and the index. -/
theorem sdrStep_state (teams : List String) (acc : List SDRProfile) (i : Nat) (s : Nat) :
    (Id.run ((sdrStep teams acc i).run s)).2
      = (mulberry32Raw (mulberry32Raw (mulberry32Raw s).2).2).2 := rfl

/-- The PRNG state after the SDR loop does not depend on the team list or
the accumulator: each iteration advances the stream by three steps. -/
theorem sdrsFold_state (l₁ l₂ : List String) (xs : List Nat)
    (acc₁ acc₂ : List SDRProfile) (s : Nat) :
    (Id.run ((xs.foldlM (sdrStep l₁) acc₁).run s)).2
      = (Id.run ((xs.foldlM (sdrStep l₂) acc₂).run s)).2 := by
  induction xs generalizing acc₁ acc₂ s with
  | nil => rfl
  | cons x xs ih =>
    rw [List.foldlM_cons, List.foldlM_cons, run_bind, run_bind,
      sdrStep_state l₁, sdrStep_state l₂]
    exact ih _ _ _

/-- The PRNG state after createSdrs does not depend on the team list: the
SDR count comes from the stream and every draw advances it by one step
whatever its arguments. -/
theorem createSdrs_state (l₁ l₂ : List String) (s : Nat) :
    (Id.run ((createSdrs l₁).run s)).2 = (Id.run ((createSdrs l₂).run s)).2 := by
  unfold createSdrs
  rw [run_bind, run_bind]
  exact sdrsFold_state l₁ l₂ _ _ _ _

/-- One company draw advances the PRNG stream by exactly two mulberry32
steps, whatever the industry, the indices and the accumulator. -/
theorem companyStep_state (ind : IndustryProfile) (idx : Nat)
    (acc : List CompanyProfile) (i : Nat) (s : Nat) :
    (Id.run ((companyStep ind idx acc i).run s)).2
      = (mulberry32Raw (mulberry32Raw s).2).2 := rfl

/-- The PRNG state after the inner company loop depends only on the number
of iterations, not on the industry or the accumulator. -/
theorem companyFold_state (ind₁ ind₂ : IndustryProfile) (idx₁ idx₂ : Nat)
    (xs : List Nat) (acc₁ acc₂ : List CompanyProfile) (s : Nat) :
    (Id.run ((xs.foldlM (companyStep ind₁ idx₁) acc₁).run s)).2
      = (Id.run ((xs.foldlM (companyStep ind₂ idx₂) acc₂).run s)).2 := by
  induction xs generalizing acc₁ acc₂ s with
  | nil => rfl
  | cons x xs ih =>
    rw [List.foldlM_cons, List.foldlM_cons, run_bind, run_bind,
      companyStep_state ind₁, companyStep_state ind₂]
    exact ih _ _ _

/-- The PRNG state after one industry of the outer company loop does not
depend on the industry value: the per-industry count comes from the
stream. -/
theorem industryStep_state (p₁ p₂ : Nat × IndustryProfile)
    (acc₁ acc₂ : List CompanyProfile) (s : Nat) :
    (Id.run ((industryStep acc₁ p₁).run s)).2
      = (Id.run ((industryStep acc₂ p₂).run s)).2 := by
  unfold industryStep
  rw [run_bind, run_bind]
  exact companyFold_state _ _ _ _ _ _ _ _

/-- The PRNG state after the outer company loop depends only on the number
of industries. -/
theorem companiesFold_state (ps₁ ps₂ : List (Nat × IndustryProfile))
    (h : ps₁.length = ps₂.length) (acc₁ acc₂ : List CompanyProfile) (s : Nat) :
    (Id.run ((ps₁.foldlM industryStep acc₁).run s)).2
      = (Id.run ((ps₂.foldlM industryStep acc₂).run s)).2 := by
  induction ps₁ generalizing ps₂ acc₁ acc₂ s with
  | nil =>
    cases ps₂ with
    | nil => rfl
    | cons q qs => simp at h
  | cons p ps ih =>
    cases ps₂ with
    | nil => simp at h
    | cons q qs =>
      rw [List.foldlM_cons, List.foldlM_cons, run_bind, run_bind,
        industryStep_state p q acc₁ acc₂ s]
      exact ih qs (by simpa using h) _ _ _

/-- The PRNG state after createCompanies depends on the industry list only
through its length. -/
theorem createCompanies_state (l₁ l₂ : List IndustryProfile)
    (h : l₁.length = l₂.length) (s : Nat) :
    (Id.run ((createCompanies l₁).run s)).2
      = (Id.run ((createCompanies l₂).run s)).2 := by
  unfold createCompanies
  exact companiesFold_state _ _ (by simpa using h) _ _ s

/-- The Fisher-Yates loop swaps in place and preserves the array size. -/
theorem shuffleGo_size (n : Nat) : ∀ (a : Array α) (s : Nat),
    (Id.run ((shuffleGo a n).run s)).1.size = a.size := by
  induction n with
  | zero => intro a s; rfl
  | succ n ih =>
    intro a s
    show (Id.run ((rngFloorMul (n + 2) >>= fun j =>
        shuffleGo (a.swap! (n + 1) j) n).run s)).1.size = a.size
    rw [run_bind, ih]
    exact Array.size_swap! ..

/-- shuffle returns a list of the same length as its input. -/
theorem shuffle_length (l : List α) (s : Nat) :
    (Id.run ((shuffle l).run s)).1.length = l.length := by
  unfold shuffle
  rw [run_bind]
  show (Id.run ((shuffleGo l.toArray (l.length - 1)).run s)).1.toList.length = l.length
  rw [Array.length_toList, shuffleGo_size, Array.size_toArray]

/-- A dummy industry profile: the company-stage PRNG state is the same
over any industry list of the right length. -/
def dummyIndustry : IndustryProfile := { name := "", quiet := false }

set_option maxHeartbeats 1600000 in
/-- PRNG state after hashing the default seed 42. -/
theorem initRngState42 : initRngState "42" = 2309403825 := by decide

set_option maxHeartbeats 1600000 in
/-- PRNG state after the createTeams draws for the seed 42. -/
theorem teamsStage42 : (Id.run (createTeams.run 2309403825)).2 = 13298798703 := by decide

set_option maxHeartbeats 1600000 in
/-- PRNG state after the createIndustries draws for the seed 42. -/
theorem indsStage42 : (Id.run (createIndustries.run 13298798703)).2 = 33446022646 := by decide

set_option maxHeartbeats 1600000 in
/-- The seed 42 draws six industries (count 6, pool of eight). -/
theorem indsLen42 : (Id.run (createIndustries.run 13298798703)).1.length = 6 := by
  unfold createIndustries
  simp only [run_bind, run_pure]
  rw [List.length_take, shuffle_length]
  decide

set_option maxHeartbeats 4000000 in
/-- PRNG state after the createCompanies draws for the seed 42, run over
six dummy industries (the state only depends on the count). -/
theorem compsStage42 :
    (Id.run ((createCompanies (List.replicate 6 dummyIndustry)).run
      33446022646)).2 = 231255130450 := by decide

set_option maxHeartbeats 4000000 in
/-- PRNG state after the createSdrs draws for the seed 42, run over an
empty team list (the state does not depend on the teams). -/
theorem sdrsStage42 :
    (Id.run ((createSdrs ([] : List String)).run 231255130450)).2 = 288033670653 := by decide

set_option maxHeartbeats 1600000 in
/-- First day of the window buildDateRange produces at the state the seed
42 leaves after the directory draws: three days past the anchor. -/
theorem dateStage42 : (Id.run (buildDateRange.run 288033670653)).1.head?
    = some (anchorMs + 3 * MS_DAY) := by decide

/-- Counterexample to C9 as stated: for the seed 42 (the default seed of
the source), the generated window starts three days after the Monday
anchor, on a Thursday (weekday index 4), not on a Monday (index 1). -/
theorem dateRange_not_monday_seed42 :
    (dateRangeOfSeed "42").head? = some (anchorMs + 3 * MS_DAY) ∧
      weekday (anchorMs + 3 * MS_DAY) ≠ 1 := by
  constructor
  · show ((Id.run (buildDateRange.run
        ((Id.run ((createSdrs (Id.run (createTeams.run (initRngState "42"))).1).run
          ((Id.run ((createCompanies
            (Id.run (createIndustries.run
              (Id.run (createTeams.run (initRngState "42"))).2)).1).run
            (Id.run (createIndustries.run
              (Id.run (createTeams.run (initRngState "42"))).2)).2)).2))).2))).1).head?
      = some (anchorMs + 3 * MS_DAY)
    rw [initRngState42, teamsStage42, indsStage42]
    rw [createCompanies_state (Id.run (createIndustries.run 13298798703)).1
      (List.replicate 6 dummyIndustry)
      (by rw [indsLen42, List.length_replicate])]
    rw [compsStage42]
    rw [createSdrs_state (Id.run (createTeams.run 2309403825)).1 ([] : List String)]
    rw [sdrsStage42, dateStage42]
  · decide


/-!
CSV codec of src/tabs/PipelineHealth.tsx (serializeDashboardCsv,
parseDashboardCsv and their helpers), embedded at the character level:
strings are lists of characters, String.prototype.trim is modelled with
the \s class of JavaScript, and String(number) by decimal rendering. The
summaries JSON text, the dataset seed and the generatedAt stamp enter the
serializer as opaque text parameters, and JSON.parse succeeding on the
summaries payload is abstracted as a Boolean predicate parameter: the
importer never reads into the parsed summaries object.
-/

/-- JS whitespace (the \s class of String.prototype.trim). -/
def isJsWs (c : Char) : Bool :=
  c.toNat == 0x20 || c.toNat == 0x09 || c.toNat == 0x0A || c.toNat == 0x0B ||
  c.toNat == 0x0C || c.toNat == 0x0D || c.toNat == 0xA0 || c.toNat == 0x1680 ||
  (decide (0x2000 ≤ c.toNat) && decide (c.toNat ≤ 0x200A)) ||
  c.toNat == 0x2028 || c.toNat == 0x2029 || c.toNat == 0x202F ||
  c.toNat == 0x205F || c.toNat == 0x3000 || c.toNat == 0xFEFF

/-- String.prototype.trim. -/
def jsTrim (l : List Char) : List Char :=
  ((l.dropWhile isJsWs).reverse.dropWhile isJsWs).reverse

/-- No JS whitespace at either end. -/
def noEdgeWs (l : List Char) : Bool :=
  l.head?.all (fun c => !isJsWs c) && l.getLast?.all (fun c => !isJsWs c)

theorem dropWhile_eq_self_of_head (p : Char → Bool) (l : List Char)
    (h : l.head?.all (fun c => !p c) = true) : l.dropWhile p = l := by
  cases l with
  | nil => rfl
  | cons a t =>
    simp only [List.head?_cons, Option.all_some, Bool.not_eq_true'] at h
    simp [List.dropWhile_cons, h]

theorem jsTrim_eq_self (l : List Char) (h : noEdgeWs l = true) : jsTrim l = l := by
  unfold noEdgeWs at h
  rw [Bool.and_eq_true] at h
  unfold jsTrim
  rw [dropWhile_eq_self_of_head _ _ h.1]
  rw [dropWhile_eq_self_of_head, List.reverse_reverse]
  rw [List.head?_reverse]
  exact h.2

theorem head_dropWhile (p : Char → Bool) (l : List Char) :
    (l.dropWhile p).head?.all (fun c => !p c) = true := by
  induction l with
  | nil => rfl
  | cons a t ih =>
    rw [List.dropWhile_cons]
    by_cases h : p a
    · simpa [h] using ih
    · simp [h]

theorem getLast?_dropWhile (p : Char → Bool) (l : List Char) (h : l.dropWhile p ≠ []) :
    (l.dropWhile p).getLast? = l.getLast? := by
  induction l with
  | nil => simp at h
  | cons a t ih =>
    rw [List.dropWhile_cons] at h ⊢
    by_cases hp : p a
    · rw [if_pos hp] at h ⊢
      cases t with
      | nil => simp at h
      | cons b t2 =>
        rw [List.getLast?_cons_cons]
        exact ih h
    · rw [if_neg hp]

theorem noEdgeWs_jsTrim (l : List Char) : noEdgeWs (jsTrim l) = true := by
  unfold noEdgeWs jsTrim
  rw [Bool.and_eq_true]
  constructor
  · rw [List.head?_reverse]
    by_cases h : ((l.dropWhile isJsWs).reverse.dropWhile isJsWs) = []
    · simp [h]
    · rw [getLast?_dropWhile _ _ h, List.getLast?_reverse]
      exact head_dropWhile _ _
  · rw [List.getLast?_reverse]
    exact head_dropWhile _ _

theorem jsTrim_idem (l : List Char) : jsTrim (jsTrim l) = jsTrim l :=
  jsTrim_eq_self _ (noEdgeWs_jsTrim l)

theorem jsTrim_cons_ws (c : Char) (l : List Char) (h : isJsWs c = true) :
    jsTrim (c :: l) = jsTrim l := by
  unfold jsTrim
  rw [List.dropWhile_cons, if_pos h]

/-- Drop one trailing carriage return (the \r the /\r?\n/ split consumes). -/
def dropTrailingCr (l : List Char) : List Char :=
  if l.getLast? = some '\r' then l.dropLast else l

/-- Split on newlines, dropping one \r before each \n (split(/\r?\n/)). -/
def splitLinesGo : List Char → List Char → List (List Char)
  | [], current => [current]
  | c :: rest, current =>
    if c = '\n' then dropTrailingCr current :: splitLinesGo rest []
    else splitLinesGo rest (current ++ [c])

def splitLines (content : List Char) : List (List Char) := splitLinesGo content []

/-- Array.prototype.join('\n'). -/
def joinLF : List (List Char) → List Char
  | [] => []
  | [x] => x
  | x :: y :: xs => x ++ '\n' :: joinLF (y :: xs)

/-- Array.prototype.join(','). -/
def joinComma : List (List Char) → List Char
  | [] => []
  | [x] => x
  | x :: y :: xs => x ++ ',' :: joinComma (y :: xs)

theorem splitLinesGo_noLF (a : List Char) (cur : List Char) (h : '\n' ∉ a) :
    splitLinesGo a cur = [cur ++ a] := by
  induction a generalizing cur with
  | nil => simp [splitLinesGo]
  | cons c t ih =>
    have hc : c ≠ '\n' := fun hce => h (hce ▸ List.mem_cons_self c t)
    rw [splitLinesGo, if_neg hc, ih _ (fun hm => h (List.mem_cons_of_mem c hm))]
    simp

theorem splitLinesGo_append (a rest : List Char) (cur : List Char) (h : '\n' ∉ a)
    (hcr : (cur ++ a).getLast? ≠ some '\r') :
    splitLinesGo (a ++ '\n' :: rest) cur = (cur ++ a) :: splitLinesGo rest [] := by
  induction a generalizing cur with
  | nil =>
    rw [List.nil_append, splitLinesGo, if_pos rfl]
    rw [List.append_nil] at hcr
    rw [dropTrailingCr, if_neg hcr]
    simp
  | cons c t ih =>
    have hc : c ≠ '\n' := fun hce => h (hce ▸ List.mem_cons_self c t)
    rw [List.cons_append, splitLinesGo, if_neg hc]
    have h2 : '\n' ∉ t := fun hm => h (List.mem_cons_of_mem c hm)
    have h3 : ((cur ++ [c]) ++ t).getLast? ≠ some '\r' := by
      rw [List.append_assoc]
      simpa using hcr
    rw [ih _ h2 h3]
    simp

theorem splitLines_joinLF (ps : List (List Char))
    (h : ∀ p ∈ ps, '\n' ∉ p ∧ p.getLast? ≠ some '\r') (hne : ps ≠ []) :
    splitLines (joinLF ps) = ps := by
  induction ps with
  | nil => exact absurd rfl hne
  | cons p ps ih =>
    cases ps with
    | nil =>
      unfold splitLines
      rw [joinLF, splitLinesGo_noLF _ _ (h p (List.mem_cons_self _ _)).1]
      simp
    | cons q qs =>
      unfold splitLines
      rw [joinLF]
      obtain ⟨h1, h2⟩ := h p (List.mem_cons_self _ _)
      rw [splitLinesGo_append _ _ _ h1 (by simpa using h2)]
      have := ih (fun r hr => h r (List.mem_cons_of_mem p hr)) (by simp)
      unfold splitLines at this
      rw [this]
      simp

/-- formatCsvValue escape: every double quote doubled (replace(/"/g, '""')). -/
def escapeQuotes : List Char → List Char
  | [] => []
  | c :: rest =>
    if c = '"' then '"' :: '"' :: escapeQuotes rest else c :: escapeQuotes rest

/-- formatCsvValue of src/tabs/PipelineHealth.tsx: null and undefined to the
empty cell, everything else quote wrapped with inner quotes doubled. -/
def formatCsvValue : Option (List Char) → List Char
  | none => []
  | some s => '"' :: (escapeQuotes s ++ ['"'])

/-- parseCsvLine loop of src/tabs/PipelineHealth.tsx, one character at a
time with one lookahead character for the doubled-quote escape. -/
def parseCsvLineGo (l : List Char) (inQ : Bool) (current : List Char) :
    List (List Char) :=
  match l with
  | [] => [current]
  | c :: rest =>
    if inQ then
      if c = '"' then
        if rest.head? = some '"' then parseCsvLineGo rest.tail true (current ++ ['"'])
        else parseCsvLineGo rest false current
      else parseCsvLineGo rest true (current ++ [c])
    else
      if c = '"' then parseCsvLineGo rest true current
      else if c = ',' then current :: parseCsvLineGo rest false []
      else parseCsvLineGo rest false (current ++ [c])
termination_by l.length
decreasing_by
  all_goals simp [List.length_tail]
  all_goals omega

def parseCsvLine (line : List Char) : List (List Char) := parseCsvLineGo line false []

theorem parseCsvLineGo_nil (inQ : Bool) (cur : List Char) :
    parseCsvLineGo [] inQ cur = [cur] := by
  rw [parseCsvLineGo]

/-- Consuming one quoted cell: the escaped body followed by the closing
quote restores the body. The character after the closing quote is never a
quote (it is a comma or the end of the line). -/
theorem parseCsvLineGo_quoted (v : List Char) (tail : List Char) (cur : List Char)
    (htail : tail.head? ≠ some '"') :
    parseCsvLineGo (escapeQuotes v ++ '"' :: tail) true cur
      = parseCsvLineGo tail false (cur ++ v) := by
  induction v generalizing cur with
  | nil =>
    rw [escapeQuotes, List.nil_append, parseCsvLineGo]
    simp [htail]
  | cons c t ih =>
    rw [escapeQuotes]
    by_cases hc : c = '"'
    · subst hc
      rw [if_pos rfl, List.cons_append, List.cons_append, parseCsvLineGo]
      simp only [if_true, List.head?_cons, List.tail_cons, ite_true]
      rw [ih (cur ++ ['"'])]
      simp
    · rw [if_neg hc, List.cons_append, parseCsvLineGo]
      simp only [if_true, ite_true, if_neg hc]
      rw [ih (cur ++ [c])]
      simp

/-- Parsing a serialized row of cells: each quoted cell comes back as its
raw value, each null cell as the empty value. -/
theorem parseCsvLine_cells (cells : List (Option (List Char))) (hne : cells ≠ []) :
    parseCsvLineGo (joinComma (cells.map formatCsvValue)) false []
      = cells.map (fun c => c.getD []) := by
  induction cells with
  | nil => exact absurd rfl hne
  | cons c cs ih =>
    cases cs with
    | nil =>
      cases c with
      | none =>
        simp only [List.map_cons, List.map_nil, joinComma, formatCsvValue]
        rw [parseCsvLineGo_nil]
        simp
      | some v =>
        simp only [List.map_cons, List.map_nil, joinComma, formatCsvValue]
        rw [parseCsvLineGo]
        rw [if_neg (show ¬ (false = true) by decide), if_pos rfl]
        rw [parseCsvLineGo_quoted v [] [] (by simp), parseCsvLineGo_nil]
        simp
    | cons c2 cs2 =>
      cases c with
      | none =>
        rw [List.map_cons, List.map_cons, show formatCsvValue none = [] from rfl,
          joinComma, List.nil_append, parseCsvLineGo]
        rw [if_neg (show ¬ (false = true) by decide),
          if_neg (show ¬ (',' : Char) = '"' by decide), if_pos rfl]
        have IH := ih (by simp)
        rw [List.map_cons] at IH
        rw [IH]
        simp
      | some v =>
        rw [List.map_cons, List.map_cons, show formatCsvValue (some v)
            = '"' :: (escapeQuotes v ++ ['"']) from rfl, joinComma,
          List.cons_append, parseCsvLineGo]
        rw [if_neg (show ¬ (false = true) by decide), if_pos rfl]
        rw [List.append_assoc, List.singleton_append,
          parseCsvLineGo_quoted v _ [] (by simp)]
        rw [parseCsvLineGo]
        rw [if_neg (show ¬ (false = true) by decide),
          if_neg (show ¬ (',' : Char) = '"' by decide), if_pos rfl]
        have IH := ih (by simp)
        rw [List.map_cons] at IH
        rw [IH]
        simp

/-- Decimal digit character. -/
def digitChar (d : Nat) : Char :=
  match d % 10 with
  | 0 => '0' | 1 => '1' | 2 => '2' | 3 => '3' | 4 => '4'
  | 5 => '5' | 6 => '6' | 7 => '7' | 8 => '8' | _ => '9'

/-- Decimal digits of n, most significant first, onto acc. The fuel is the
number itself, which bounds the digit count. -/
def natStrGo : Nat → Nat → List Char → List Char
  | 0, _, acc => acc
  | _ + 1, 0, acc => acc
  | fuel + 1, n + 1, acc => natStrGo fuel ((n + 1) / 10) (digitChar ((n + 1) % 10) :: acc)

/-- Decimal rendering of a natural number. -/
def natStr (n : Nat) : List Char := if n = 0 then ['0'] else natStrGo n n []

/-- String(value) for the integer-valued numbers the system serializes. -/
def intStr (i : Int) : List Char :=
  if i < 0 then '-' :: natStr (-i).toNat else natStr i.toNat

def channelName : Channel → List Char
  | Channel.call => "call".data
  | Channel.email => "email".data
  | Channel.linkedin => "linkedin".data

def outcomeName : Outcome → List Char
  | Outcome.no_answer => "no_answer".data
  | Outcome.voicemail => "voicemail".data
  | Outcome.connected => "connected".data
  | Outcome.conversation => "conversation".data
  | Outcome.meeting_booked => "meeting_booked".data
  | Outcome.meeting_held => "meeting_held".data
  | Outcome.no_show => "no_show".data
  | Outcome.qualified => "qualified".data

def objectionName : Objection → List Char
  | Objection.budget => "budget".data
  | Objection.timing => "timing".data
  | Objection.authority => "authority".data
  | Objection.need => "need".data
  | Objection.other => "other".data

/-- VALID_CHANNELS membership test plus the cast to the enum. -/
def channelFromName (v : List Char) : Option Channel :=
  if v = "call".data then some Channel.call
  else if v = "email".data then some Channel.email
  else if v = "linkedin".data then some Channel.linkedin
  else none

/-- VALID_OUTCOMES membership test plus the cast to the enum. -/
def outcomeFromName (v : List Char) : Option Outcome :=
  if v = "no_answer".data then some Outcome.no_answer
  else if v = "voicemail".data then some Outcome.voicemail
  else if v = "connected".data then some Outcome.connected
  else if v = "conversation".data then some Outcome.conversation
  else if v = "meeting_booked".data then some Outcome.meeting_booked
  else if v = "meeting_held".data then some Outcome.meeting_held
  else if v = "no_show".data then some Outcome.no_show
  else if v = "qualified".data then some Outcome.qualified
  else none

/-- VALID_OBJECTIONS membership test plus the cast to the enum. -/
def objectionFromName (v : List Char) : Option Objection :=
  if v = "budget".data then some Objection.budget
  else if v = "timing".data then some Objection.timing
  else if v = "authority".data then some Objection.authority
  else if v = "need".data then some Objection.need
  else if v = "other".data then some Objection.other
  else none

/-- CSV_COLUMNS of src/tabs/PipelineHealth.tsx. -/
def CSV_COLUMNS : List (List Char) :=
  ["event_id".data, "lead_id".data, "timestamp".data, "week_start".data,
   "sdr_id".data, "sdr_name".data, "team".data, "company".data,
   "industry".data, "channel".data, "outcome".data, "objection".data]

/-- The 12 column values of one event, in CSV_COLUMNS order, as the
serializer renders them (String(value), null kept as null). -/
def eventCells (e : DerivedEvent) : List (Option (List Char)) :=
  [some e.event_id.data, some e.lead_id.data, some (intStr e.timestamp),
   some (intStr e.week_start), some e.sdr_id.data, some e.sdr_name.data,
   some e.team.data, some e.company.data, some e.industry.data,
   some (channelName e.channel), some (outcomeName e.outcome),
   e.objection.map objectionName]

def SUMMARY_TAG : List Char := "DASHBOARD_SUMMARY_JSON=".data
def SEED_TAG : List Char := "DATASET_SEED=".data

def headerRow : List Char :=
  joinComma (CSV_COLUMNS.map (fun c => formatCsvValue (some c)))

def csvRow (e : DerivedEvent) : List Char :=
  joinComma ((eventCells e).map formatCsvValue)

/-- serializeDashboardCsv of src/tabs/PipelineHealth.tsx. The summaries
JSON text (JSON.stringify of buildDashboardSummaries), the dataset seed,
and the generatedAt stamp enter as opaque text parameters: the claim
checked here quantifies over them, and the parser never reads into the
summaries object. -/
def serializeDashboardCsv (events : List DerivedEvent)
    (summariesJson seed generatedAt : List Char) : List Char :=
  joinLF (('#' :: ' ' :: (SUMMARY_TAG ++ summariesJson)) ::
          ('#' :: ' ' :: (SEED_TAG ++ seed)) ::
          ('#' :: ' ' :: ("GENERATED_AT=".data ++ generatedAt)) ::
          headerRow ::
          events.map csvRow)

/-- sanitizeHeader of src/tabs/PipelineHealth.tsx: trim then strip one
leading and one trailing double quote. -/
def stripWrapQuotes (l : List Char) : List Char :=
  let l1 := if l.head? = some '"' then l.tail else l
  if l1.getLast? = some '"' then l1.dropLast else l1

def sanitizeHeader (h : List Char) : List Char := stripWrapQuotes (jsTrim h)

/-- The row objects parseDashboardCsv returns. The source annotates them
as OutreachEvent but stores every non-enum column as the raw cell string
(timestamps included); the embedding keeps those strings. -/
structure RawRow where
  event_id : List Char
  lead_id : List Char
  timestamp : List Char
  week_start : List Char
  sdr_id : List Char
  sdr_name : List Char
  team : List Char
  company : List Char
  industry : List Char
  channel : Channel
  outcome : Outcome
  objection : Option Objection
deriving DecidableEq, Repr

/-- The partially filled row while the header columns are walked. -/
structure RowDraft where
  event_id : Option (List Char)
  lead_id : Option (List Char)
  timestamp : Option (List Char)
  week_start : Option (List Char)
  sdr_id : Option (List Char)
  sdr_name : Option (List Char)
  team : Option (List Char)
  company : Option (List Char)
  industry : Option (List Char)
  channel : Option Channel
  outcome : Option Outcome
  objection : Option (Option Objection)
deriving DecidableEq, Repr

def emptyDraft : RowDraft :=
  { event_id := none, lead_id := none, timestamp := none, week_start := none,
    sdr_id := none, sdr_name := none, team := none, company := none,
    industry := none, channel := none, outcome := none, objection := none }

inductive CsvError
  | emptyFile
  | badSummaries
  | missingColumns
  | badChannel
  | badOutcome
  | badObjection
  | missingValues
  | noHeader
deriving DecidableEq, Repr

/-- One step of the headerColumns.forEach row fill: trim the indexed cell,
validate the enum columns, store the raw string otherwise. -/
def applyColumn (values : List (List Char)) (d : RowDraft) (p : Nat × List Char) :
    Except CsvError RowDraft :=
  let normalized := sanitizeHeader p.2
  if CSV_COLUMNS.contains normalized then
    let rawValue := jsTrim (values.getD p.1 [])
    if normalized = "channel".data then
      match channelFromName rawValue with
      | some c => Except.ok { d with channel := some c }
      | none => Except.error CsvError.badChannel
    else if normalized = "outcome".data then
      match outcomeFromName rawValue with
      | some o => Except.ok { d with outcome := some o }
      | none => Except.error CsvError.badOutcome
    else if normalized = "objection".data then
      if rawValue = [] then Except.ok { d with objection := some none }
      else match objectionFromName rawValue with
        | some o => Except.ok { d with objection := some (some o) }
        | none => Except.error CsvError.badObjection
    else if normalized = "event_id".data then Except.ok { d with event_id := some rawValue }
    else if normalized = "lead_id".data then Except.ok { d with lead_id := some rawValue }
    else if normalized = "timestamp".data then Except.ok { d with timestamp := some rawValue }
    else if normalized = "week_start".data then Except.ok { d with week_start := some rawValue }
    else if normalized = "sdr_id".data then Except.ok { d with sdr_id := some rawValue }
    else if normalized = "sdr_name".data then Except.ok { d with sdr_name := some rawValue }
    else if normalized = "team".data then Except.ok { d with team := some rawValue }
    else if normalized = "company".data then Except.ok { d with company := some rawValue }
    else Except.ok { d with industry := some rawValue }
  else Except.ok d

/-- A required string column holds a nonempty trimmed string. -/
def reqStr (o : Option (List Char)) : Bool :=
  o.any (fun v => !(jsTrim v).isEmpty)

/-- hasAllRequired of parseDashboardCsv: the eleven non-objection columns
hold nonempty strings (the validated channel and outcome strings are the
nonempty enum names, so presence suffices there); objection needs only to
be present. -/
def hasAllRequired (d : RowDraft) : Bool :=
  reqStr d.event_id && reqStr d.lead_id && reqStr d.timestamp &&
  reqStr d.week_start && reqStr d.sdr_id && reqStr d.sdr_name &&
  reqStr d.team && reqStr d.company && reqStr d.industry &&
  d.channel.isSome && d.outcome.isSome && d.objection.isSome

/-- Build one parsed row from the header columns and the cell values. When
hasAllRequired holds every field is filled, so the defaults never show. -/
def buildRow (headers : List (List Char)) (values : List (List Char)) :
    Except CsvError RawRow := do
  let d ← headers.enum.foldlM (applyColumn values) emptyDraft
  if hasAllRequired d then
    Except.ok
      { event_id := d.event_id.getD [], lead_id := d.lead_id.getD [],
        timestamp := d.timestamp.getD [], week_start := d.week_start.getD [],
        sdr_id := d.sdr_id.getD [], sdr_name := d.sdr_name.getD [],
        team := d.team.getD [], company := d.company.getD [],
        industry := d.industry.getD [],
        channel := d.channel.getD Channel.call,
        outcome := d.outcome.getD Outcome.no_answer,
        objection := d.objection.getD none }
  else Except.error CsvError.missingValues

structure ParseState where
  headerColumns : Option (List (List Char))
  events : List RawRow
  summaries : Option (List Char)
  seed : Option (List Char)
deriving DecidableEq, Repr

structure ParsedDashboardCsv where
  events : List RawRow
  summaries : Option (List Char)
  seed : Option (List Char)
deriving DecidableEq, Repr

/-- One line of the parseDashboardCsv forEach. The jsonOk parameter stands
for JSON.parse succeeding on the summaries metadata payload (the parsed
object itself is never read by the import). -/
def parseLine (jsonOk : List Char → Bool) (st : ParseState) (line : List Char) :
    Except CsvError ParseState :=
  if line.head? = some '#' then
    if SUMMARY_TAG.isPrefixOf (jsTrim line.tail) then
      if jsonOk ((jsTrim line.tail).drop SUMMARY_TAG.length) then
        Except.ok { st with summaries := some ((jsTrim line.tail).drop SUMMARY_TAG.length) }
      else Except.error CsvError.badSummaries
    else if SEED_TAG.isPrefixOf (jsTrim line.tail) then
      Except.ok { st with seed := some (jsTrim ((jsTrim line.tail).drop SEED_TAG.length)) }
    else Except.ok st
  else
    match st.headerColumns with
    | none =>
      if CSV_COLUMNS.all (fun c => ((parseCsvLine line).map sanitizeHeader).contains c) then
        Except.ok { st with headerColumns := some ((parseCsvLine line).map sanitizeHeader) }
      else Except.error CsvError.missingColumns
    | some headers =>
      if (parseCsvLine line).length = 0 then Except.ok st
      else
        buildRow headers (parseCsvLine line) >>= fun row =>
          Except.ok { st with events := st.events ++ [row] }

/-- parseDashboardCsv of src/tabs/PipelineHealth.tsx. -/
def parseDashboardCsv (jsonOk : List Char → Bool) (content : List Char) :
    Except CsvError ParsedDashboardCsv :=
  if ((splitLines content).map jsTrim).filter (fun l => !l.isEmpty) = [] then
    Except.error CsvError.emptyFile
  else
    (((splitLines content).map jsTrim).filter (fun l => !l.isEmpty)).foldlM (parseLine jsonOk)
      { headerColumns := none, events := [], summaries := none, seed := none } >>= fun st =>
        match st.headerColumns with
        | none => Except.error CsvError.noHeader
        | some _ =>
          Except.ok { events := st.events, summaries := st.summaries, seed := st.seed }

theorem noEdgeWs_of_all (l : List Char) (h : ∀ c ∈ l, isJsWs c = false) :
    noEdgeWs l = true := by
  unfold noEdgeWs
  rw [Bool.and_eq_true]
  constructor
  · cases hl : l.head? with
    | none => rfl
    | some c =>
      have : c ∈ l := by
        cases l with
        | nil => simp at hl
        | cons a t =>
          rw [List.head?_cons, Option.some.injEq] at hl
          exact hl ▸ List.mem_cons_self a t
      simp [h c this]
  · cases hl : l.getLast? with
    | none => rfl
    | some c =>
      have : c ∈ l := List.mem_of_mem_getLast? hl
      simp [h c this]

theorem not_mem_of_all_not_ws (l : List Char) (c : Char)
    (h : ∀ x ∈ l, isJsWs x = false) (hc : isJsWs c = true) : c ∉ l :=
  fun hm => by rw [h c hm] at hc; exact Bool.false_ne_true hc

theorem digitChar_not_ws (d : Nat) : isJsWs (digitChar d) = false := by
  unfold digitChar
  have h : d % 10 < 10 := Nat.mod_lt _ (by norm_num)
  generalize hk : d % 10 = k
  rw [hk] at h
  interval_cases k <;> decide

theorem natStrGo_mem (fuel : Nat) : ∀ (n : Nat) (acc : List Char) (c : Char),
    c ∈ natStrGo fuel n acc → (∃ d, c = digitChar d) ∨ c ∈ acc := by
  induction fuel with
  | zero => intro n acc c hc; exact Or.inr hc
  | succ fuel ih =>
    intro n acc c hc
    cases n with
    | zero => exact Or.inr hc
    | succ m =>
      rw [natStrGo] at hc
      rcases ih _ _ _ hc with h | h
      · exact Or.inl h
      · rcases List.mem_cons.mp h with h2 | h2
        · exact Or.inl ⟨(m + 1) % 10, by simpa using h2⟩
        · exact Or.inr h2

theorem intStr_mem (i : Int) (c : Char) (hc : c ∈ intStr i) :
    c = '-' ∨ ∃ d, c = digitChar d := by
  unfold intStr natStr at hc
  by_cases hneg : i < 0 <;> simp only [if_pos, if_neg, hneg, ite_true, ite_false] at hc
  · rcases List.mem_cons.mp hc with h | h
    · exact Or.inl h
    · by_cases hz : (-i).toNat = 0
      · rw [if_pos hz] at h
        refine Or.inr ⟨0, ?_⟩
        simpa [digitChar] using h
      · rw [if_neg hz] at h
        rcases natStrGo_mem _ _ _ _ h with h2 | h2
        · exact Or.inr h2
        · simp at h2
  · by_cases hz : i.toNat = 0
    · rw [if_pos hz] at hc
      refine Or.inr ⟨0, ?_⟩
      simpa [digitChar] using hc
    · rw [if_neg hz] at hc
      rcases natStrGo_mem _ _ _ _ hc with h2 | h2
      · exact Or.inr h2
      · simp at h2

theorem intStr_not_ws (i : Int) : ∀ c ∈ intStr i, isJsWs c = false := by
  intro c hc
  rcases intStr_mem i c hc with h | ⟨d, h⟩
  · subst h; decide
  · subst h; exact digitChar_not_ws d

theorem natStrGo_len (fuel : Nat) : ∀ (n : Nat) (acc : List Char),
    acc.length ≤ (natStrGo fuel n acc).length := by
  induction fuel with
  | zero => intro n acc; exact le_refl _
  | succ fuel ih =>
    intro n acc
    cases n with
    | zero => exact le_refl _
    | succ m =>
      rw [natStrGo]
      exact le_trans (by simp) (ih ((m + 1) / 10) _)

theorem intStr_ne_nil (i : Int) : intStr i ≠ [] := by
  unfold intStr natStr
  by_cases hneg : i < 0 <;> simp only [hneg, ite_true, ite_false]
  · simp
  · by_cases hz : i.toNat = 0
    · simp [hz]
    · rw [if_neg hz]
      intro h
      have h1 : i.toNat ≠ 0 := hz
      cases hn : i.toNat with
      | zero => exact h1 hn
      | succ m =>
        rw [hn, natStrGo] at h
        have := natStrGo_len m ((m + 1) / 10) [digitChar ((m + 1) % 10)]
        rw [h] at this
        simp at this

theorem jsTrim_intStr (i : Int) : jsTrim (intStr i) = intStr i :=
  jsTrim_eq_self _ (noEdgeWs_of_all _ (intStr_not_ws i))

theorem noLF_intStr (i : Int) : '\n' ∉ intStr i :=
  not_mem_of_all_not_ws _ _ (intStr_not_ws i) (by decide)

theorem noCR_intStr (i : Int) : '\r' ∉ intStr i :=
  not_mem_of_all_not_ws _ _ (intStr_not_ws i) (by decide)

theorem channelName_clean (ch : Channel) :
    jsTrim (channelName ch) = channelName ch ∧ '\n' ∉ channelName ch ∧
      '\r' ∉ channelName ch ∧ channelName ch ≠ [] := by
  cases ch <;> exact ⟨by decide, by decide, by decide, by decide⟩

theorem outcomeName_clean (oc : Outcome) :
    jsTrim (outcomeName oc) = outcomeName oc ∧ '\n' ∉ outcomeName oc ∧
      '\r' ∉ outcomeName oc ∧ outcomeName oc ≠ [] := by
  cases oc <;> exact ⟨by decide, by decide, by decide, by decide⟩

theorem objectionName_clean (ob : Objection) :
    jsTrim (objectionName ob) = objectionName ob ∧ '\n' ∉ objectionName ob ∧
      '\r' ∉ objectionName ob ∧ objectionName ob ≠ [] := by
  cases ob <;> exact ⟨by decide, by decide, by decide, by decide⟩

theorem channelFromName_name (ch : Channel) :
    channelFromName (channelName ch) = some ch := by cases ch <;> decide

theorem outcomeFromName_name (oc : Outcome) :
    outcomeFromName (outcomeName oc) = some oc := by cases oc <;> decide

theorem objectionFromName_name (ob : Objection) :
    objectionFromName (objectionName ob) = some ob := by cases ob <;> decide

theorem exc_bind_ok (a : α) (f : α → Except CsvError β) :
    (Except.ok a >>= f) = f a := rfl

theorem exc_pure (a : α) : (pure a : Except CsvError α) = Except.ok a := rfl

theorem buildRow_master (v0 v1 v2 v3 v4 v5 v6 v7 v8 : List Char)
    (ch : Channel) (oc : Outcome) (ob : Option Objection)
    (n0 : jsTrim v0 ≠ []) (n1 : jsTrim v1 ≠ []) (n2 : jsTrim v2 ≠ []) (n3 : jsTrim v3 ≠ []) (n4 : jsTrim v4 ≠ []) (n5 : jsTrim v5 ≠ []) (n6 : jsTrim v6 ≠ []) (n7 : jsTrim v7 ≠ []) (n8 : jsTrim v8 ≠ []) :
    buildRow CSV_COLUMNS [v0, v1, v2, v3, v4, v5, v6, v7, v8, channelName ch, outcomeName oc, (ob.map objectionName).getD []]
      = Except.ok
          { event_id := jsTrim v0, lead_id := jsTrim v1, timestamp := jsTrim v2,
             week_start := jsTrim v3, sdr_id := jsTrim v4, sdr_name := jsTrim v5,
             team := jsTrim v6, company := jsTrim v7, industry := jsTrim v8,
             channel := ch, outcome := oc, objection := ob } := by
  have h9 : ([(0, "event_id".data), (1, "lead_id".data), (2, "timestamp".data), (3, "week_start".data), (4, "sdr_id".data), (5, "sdr_name".data), (6, "team".data), (7, "company".data), (8, "industry".data)] : List (Nat × List Char)).foldlM
      (applyColumn [v0, v1, v2, v3, v4, v5, v6, v7, v8, channelName ch, outcomeName oc, (ob.map objectionName).getD []]) emptyDraft
      = Except.ok
        { event_id := some (jsTrim v0),
          lead_id := some (jsTrim v1),
          timestamp := some (jsTrim v2),
          week_start := some (jsTrim v3),
          sdr_id := some (jsTrim v4),
          sdr_name := some (jsTrim v5),
          team := some (jsTrim v6),
          company := some (jsTrim v7),
          industry := some (jsTrim v8),
          channel := none, outcome := none,
          objection := none } := rfl
  have hch : applyColumn [v0, v1, v2, v3, v4, v5, v6, v7, v8, channelName ch, outcomeName oc, (ob.map objectionName).getD []]
      { event_id := some (jsTrim v0),
          lead_id := some (jsTrim v1),
          timestamp := some (jsTrim v2),
          week_start := some (jsTrim v3),
          sdr_id := some (jsTrim v4),
          sdr_name := some (jsTrim v5),
          team := some (jsTrim v6),
          company := some (jsTrim v7),
          industry := some (jsTrim v8),
          channel := none, outcome := none,
          objection := none }
      (9, "channel".data)
      = Except.ok
        { event_id := some (jsTrim v0),
          lead_id := some (jsTrim v1),
          timestamp := some (jsTrim v2),
          week_start := some (jsTrim v3),
          sdr_id := some (jsTrim v4),
          sdr_name := some (jsTrim v5),
          team := some (jsTrim v6),
          company := some (jsTrim v7),
          industry := some (jsTrim v8),
          channel := some ch, outcome := none,
          objection := none } := by
    cases ch <;> rfl
  have hoc : applyColumn [v0, v1, v2, v3, v4, v5, v6, v7, v8, channelName ch, outcomeName oc, (ob.map objectionName).getD []]
      { event_id := some (jsTrim v0),
          lead_id := some (jsTrim v1),
          timestamp := some (jsTrim v2),
          week_start := some (jsTrim v3),
          sdr_id := some (jsTrim v4),
          sdr_name := some (jsTrim v5),
          team := some (jsTrim v6),
          company := some (jsTrim v7),
          industry := some (jsTrim v8),
          channel := some ch, outcome := none,
          objection := none }
      (10, "outcome".data)
      = Except.ok
        { event_id := some (jsTrim v0),
          lead_id := some (jsTrim v1),
          timestamp := some (jsTrim v2),
          week_start := some (jsTrim v3),
          sdr_id := some (jsTrim v4),
          sdr_name := some (jsTrim v5),
          team := some (jsTrim v6),
          company := some (jsTrim v7),
          industry := some (jsTrim v8),
          channel := some ch, outcome := some oc,
          objection := none } := by
    cases oc <;> rfl
  have hob : applyColumn [v0, v1, v2, v3, v4, v5, v6, v7, v8, channelName ch, outcomeName oc, (ob.map objectionName).getD []]
      { event_id := some (jsTrim v0),
          lead_id := some (jsTrim v1),
          timestamp := some (jsTrim v2),
          week_start := some (jsTrim v3),
          sdr_id := some (jsTrim v4),
          sdr_name := some (jsTrim v5),
          team := some (jsTrim v6),
          company := some (jsTrim v7),
          industry := some (jsTrim v8),
          channel := some ch, outcome := some oc,
          objection := none }
      (11, "objection".data)
      = Except.ok
        { event_id := some (jsTrim v0),
          lead_id := some (jsTrim v1),
          timestamp := some (jsTrim v2),
          week_start := some (jsTrim v3),
          sdr_id := some (jsTrim v4),
          sdr_name := some (jsTrim v5),
          team := some (jsTrim v6),
          company := some (jsTrim v7),
          industry := some (jsTrim v8),
          channel := some ch, outcome := some oc,
          objection := some ob } := by
    rcases ob with _ | o
    · rfl
    · cases o <;> rfl
  have hreq : hasAllRequired
      { event_id := some (jsTrim v0),
          lead_id := some (jsTrim v1),
          timestamp := some (jsTrim v2),
          week_start := some (jsTrim v3),
          sdr_id := some (jsTrim v4),
          sdr_name := some (jsTrim v5),
          team := some (jsTrim v6),
          company := some (jsTrim v7),
          industry := some (jsTrim v8),
          channel := some ch, outcome := some oc,
          objection := some ob } = true := by
    simp [hasAllRequired, reqStr, jsTrim_idem, n0, n1, n2, n3, n4, n5, n6, n7, n8]
  unfold buildRow
  rw [show CSV_COLUMNS.enum = [(0, "event_id".data), (1, "lead_id".data), (2, "timestamp".data), (3, "week_start".data), (4, "sdr_id".data), (5, "sdr_name".data), (6, "team".data), (7, "company".data), (8, "industry".data)] ++ [(9, "channel".data), (10, "outcome".data), (11, "objection".data)] from rfl, List.foldlM_append, h9]
  simp only [exc_bind_ok]
  rw [List.foldlM_cons, hch]
  simp only [exc_bind_ok]
  rw [List.foldlM_cons, hoc]
  simp only [exc_bind_ok]
  rw [List.foldlM_cons, hob]
  simp only [List.foldlM_nil, exc_pure, exc_bind_ok]
  rw [hreq]
  simp

theorem noEdgeWs_of_jsTrim (l : List Char) (h : jsTrim l = l) : noEdgeWs l = true :=
  h ▸ noEdgeWs_jsTrim l

theorem mem_escapeQuotes (v : List Char) (c : Char) (h : c ∈ escapeQuotes v) :
    c = '"' ∨ c ∈ v := by
  induction v with
  | nil => simp [escapeQuotes] at h
  | cons a t ih =>
    rw [escapeQuotes] at h
    by_cases ha : a = '"'
    · rw [if_pos ha] at h
      rcases List.mem_cons.mp h with h1 | h1
      · exact Or.inl h1
      · rcases List.mem_cons.mp h1 with h2 | h2
        · exact Or.inl h2
        · rcases ih h2 with h3 | h3
          · exact Or.inl h3
          · exact Or.inr (List.mem_cons_of_mem a h3)
    · rw [if_neg ha] at h
      rcases List.mem_cons.mp h with h1 | h1
      · exact Or.inr (h1 ▸ List.mem_cons_self a t)
      · rcases ih h1 with h3 | h3
        · exact Or.inl h3
        · exact Or.inr (List.mem_cons_of_mem a h3)

theorem mem_formatCsvValue (o : Option (List Char)) (c : Char)
    (h : c ∈ formatCsvValue o) : c = '"' ∨ ∃ v, o = some v ∧ c ∈ v := by
  cases o with
  | none => simp [formatCsvValue] at h
  | some v =>
    rw [formatCsvValue] at h
    rcases List.mem_cons.mp h with h1 | h1
    · exact Or.inl h1
    · rcases List.mem_append.mp h1 with h2 | h2
      · rcases mem_escapeQuotes v c h2 with h3 | h3
        · exact Or.inl h3
        · exact Or.inr ⟨v, rfl, h3⟩
      · simp only [List.mem_singleton] at h2
        exact Or.inl h2

theorem mem_joinComma (xs : List (List Char)) (c : Char) (h : c ∈ joinComma xs) :
    c = ',' ∨ ∃ x ∈ xs, c ∈ x := by
  induction xs with
  | nil => simp [joinComma] at h
  | cons x ys ih =>
    cases ys with
    | nil =>
      rw [joinComma] at h
      exact Or.inr ⟨x, List.mem_cons_self _ _, h⟩
    | cons y zs =>
      rw [joinComma] at h
      rcases List.mem_append.mp h with h1 | h1
      · exact Or.inr ⟨x, List.mem_cons_self _ _, h1⟩
      · rcases List.mem_cons.mp h1 with h2 | h2
        · exact Or.inl h2
        · rcases ih h2 with h3 | ⟨z, hz, hcz⟩
          · exact Or.inl h3
          · exact Or.inr ⟨z, List.mem_cons_of_mem _ hz, hcz⟩

theorem joinComma_getLast (cells : List (Option (List Char))) (o : Option (List Char))
    (hne : cells ≠ []) :
    (joinComma ((cells ++ [o]).map formatCsvValue)).getLast?
      = some (if o.isSome then '"' else ',') := by
  induction cells with
  | nil => exact absurd rfl hne
  | cons c cs ih =>
    cases cs with
    | nil =>
      rw [show (([c] ++ [o] : List (Option (List Char))).map formatCsvValue)
          = [formatCsvValue c, formatCsvValue o] from rfl]
      rw [joinComma]
      cases o with
      | none =>
        rw [show formatCsvValue none = [] from rfl, List.getLast?_append]
        rfl
      | some v =>
        rw [show formatCsvValue (some v) = '"' :: (escapeQuotes v ++ ['"']) from rfl]
        rw [show joinComma ['"' :: (escapeQuotes v ++ ['"'])]
            = '"' :: (escapeQuotes v ++ ['"']) from rfl]
        rw [List.getLast?_append]
        rw [show (',' :: '"' :: (escapeQuotes v ++ ['"']) : List Char)
            = (',' :: '"' :: escapeQuotes v) ++ ['"'] from by simp]
        rw [List.getLast?_concat]
        rfl
    | cons c2 cs2 =>
      rw [show (((c :: c2 :: cs2) ++ [o] : List (Option (List Char))).map formatCsvValue)
          = formatCsvValue c :: ((c2 :: cs2 ++ [o]).map formatCsvValue) from rfl]
      rw [show joinComma (formatCsvValue c :: ((c2 :: cs2 ++ [o]).map formatCsvValue))
          = formatCsvValue c ++ ',' :: joinComma ((c2 :: cs2 ++ [o]).map formatCsvValue)
          from by
            rw [show ((c2 :: cs2 ++ [o] : List (Option (List Char))).map formatCsvValue)
                = formatCsvValue c2 :: ((cs2 ++ [o]).map formatCsvValue) from rfl]
            rw [joinComma]]
      rw [List.getLast?_append]
      rw [show (',' :: joinComma ((c2 :: cs2 ++ [o]).map formatCsvValue) : List Char)
          = [','] ++ joinComma ((c2 :: cs2 ++ [o]).map formatCsvValue) from rfl]
      rw [List.getLast?_append, ih (by simp)]
      rfl

/-- The row conditions the round trip needs: string columns free of
newlines (a newline would split the CSV row), with a nonempty trimmed
value (the importer rejects rows with empty required cells). -/
def RowOk (e : DerivedEvent) : Prop :=
  ('\n' ∉ e.event_id.data ∧ jsTrim e.event_id.data ≠ []) ∧
  ('\n' ∉ e.lead_id.data ∧ jsTrim e.lead_id.data ≠ []) ∧
  ('\n' ∉ e.sdr_id.data ∧ jsTrim e.sdr_id.data ≠ []) ∧
  ('\n' ∉ e.sdr_name.data ∧ jsTrim e.sdr_name.data ≠ []) ∧
  ('\n' ∉ e.team.data ∧ jsTrim e.team.data ≠ []) ∧
  ('\n' ∉ e.company.data ∧ jsTrim e.company.data ≠ []) ∧
  ('\n' ∉ e.industry.data ∧ jsTrim e.industry.data ≠ [])

instance (e : DerivedEvent) : Decidable (RowOk e) := by
  unfold RowOk
  infer_instance

/-- What one serialized row parses back to: each string column trimmed,
the enum columns restored. -/
def trimRow (e : DerivedEvent) : RawRow :=
  { event_id := jsTrim e.event_id.data, lead_id := jsTrim e.lead_id.data,
    timestamp := jsTrim (intStr e.timestamp), week_start := jsTrim (intStr e.week_start),
    sdr_id := jsTrim e.sdr_id.data, sdr_name := jsTrim e.sdr_name.data,
    team := jsTrim e.team.data, company := jsTrim e.company.data,
    industry := jsTrim e.industry.data, channel := e.channel,
    outcome := e.outcome, objection := e.objection }

theorem csvRow_head (e : DerivedEvent) : (csvRow e).head? = some '"' := rfl

theorem csvRow_ne_nil (e : DerivedEvent) : csvRow e ≠ [] := by
  intro h
  have := csvRow_head e
  rw [h] at this
  simp at this

theorem csvRow_getLast (e : DerivedEvent) :
    (csvRow e).getLast?
      = some (if (e.objection.map objectionName).isSome then '"' else ',') := by
  unfold csvRow
  rw [show eventCells e
      = [some e.event_id.data, some e.lead_id.data, some (intStr e.timestamp),
         some (intStr e.week_start), some e.sdr_id.data, some e.sdr_name.data,
         some e.team.data, some e.company.data, some e.industry.data,
         some (channelName e.channel), some (outcomeName e.outcome)]
        ++ [e.objection.map objectionName] from rfl]
  exact joinComma_getLast _ _ (by simp)

theorem csvRow_noEdgeWs (e : DerivedEvent) : noEdgeWs (csvRow e) = true := by
  unfold noEdgeWs
  rw [Bool.and_eq_true]
  constructor
  · rw [csvRow_head]
    decide
  · rw [csvRow_getLast]
    cases hb : (e.objection.map objectionName).isSome <;> simp <;> decide

theorem csvRow_trim (e : DerivedEvent) : jsTrim (csvRow e) = csvRow e :=
  jsTrim_eq_self _ (csvRow_noEdgeWs e)

theorem csvRow_not_cr (e : DerivedEvent) : (csvRow e).getLast? ≠ some '\r' := by
  rw [csvRow_getLast]
  cases hb : (e.objection.map objectionName).isSome <;> simp

theorem csvRow_noLF (e : DerivedEvent) (he : RowOk e) : '\n' ∉ csvRow e := by
  intro hm
  unfold csvRow at hm
  rcases mem_joinComma _ _ hm with h | ⟨x, hx, hcx⟩
  · exact absurd h (by decide)
  · rcases List.mem_map.mp hx with ⟨cell, hcell, hfc⟩
    rw [← hfc] at hcx
    rcases mem_formatCsvValue _ _ hcx with h | ⟨v, hv, hcv⟩
    · exact absurd h (by decide)
    · simp only [eventCells, List.mem_cons, List.not_mem_nil, or_false] at hcell
      rcases hcell with h1 | h1 | h1 | h1 | h1 | h1 | h1 | h1 | h1 | h1 | h1 | h1
      · rw [h1, Option.some.injEq] at hv; rw [← hv] at hcv; exact he.1.1 hcv
      · rw [h1, Option.some.injEq] at hv; rw [← hv] at hcv; exact he.2.1.1 hcv
      · rw [h1, Option.some.injEq] at hv; rw [← hv] at hcv
        exact noLF_intStr _ hcv
      · rw [h1, Option.some.injEq] at hv; rw [← hv] at hcv
        exact noLF_intStr _ hcv
      · rw [h1, Option.some.injEq] at hv; rw [← hv] at hcv; exact he.2.2.1.1 hcv
      · rw [h1, Option.some.injEq] at hv; rw [← hv] at hcv; exact he.2.2.2.1.1 hcv
      · rw [h1, Option.some.injEq] at hv; rw [← hv] at hcv; exact he.2.2.2.2.1.1 hcv
      · rw [h1, Option.some.injEq] at hv; rw [← hv] at hcv; exact he.2.2.2.2.2.1.1 hcv
      · rw [h1, Option.some.injEq] at hv; rw [← hv] at hcv
        exact he.2.2.2.2.2.2.1 hcv
      · rw [h1, Option.some.injEq] at hv; rw [← hv] at hcv
        exact (channelName_clean e.channel).2.1 hcv
      · rw [h1, Option.some.injEq] at hv; rw [← hv] at hcv
        exact (outcomeName_clean e.outcome).2.1 hcv
      · rw [h1] at hv
        rcases Option.map_eq_some'.mp hv with ⟨o, ho, rfl⟩
        exact (objectionName_clean o).2.1 hcv

theorem isPrefixOf_append_self : ∀ (a b : List Char), a.isPrefixOf (a ++ b) = true := by
  intro a b
  induction a with
  | nil => simp [List.isPrefixOf]
  | cons c t ih => simp [List.isPrefixOf, ih]

theorem jsTrim_tag_append (tag rest : List Char) (th tc : Char)
    (hth : tag.head? = some th) (hthw : isJsWs th = false)
    (htl : tag.getLast? = some tc) (htc : isJsWs tc = false)
    (hr : jsTrim rest = rest) :
    jsTrim (tag ++ rest) = tag ++ rest := by
  apply jsTrim_eq_self
  unfold noEdgeWs
  rw [Bool.and_eq_true]
  constructor
  · rw [List.head?_append, hth]
    simp [hthw]
  · rw [List.getLast?_append]
    have hrest := noEdgeWs_of_jsTrim _ hr
    unfold noEdgeWs at hrest
    rw [Bool.and_eq_true] at hrest
    cases hrl : rest.getLast? with
    | none => rw [htl]; simpa [Option.or] using htc
    | some c =>
      rw [hrl] at hrest
      simpa [Option.or] using hrest.2

theorem noEdgeWs_meta (tag rest : List Char) (th tc : Char)
    (hth : tag.head? = some th) (hthw : isJsWs th = false)
    (htl : tag.getLast? = some tc) (htc : isJsWs tc = false)
    (hr : jsTrim rest = rest) :
    noEdgeWs ('#' :: ' ' :: (tag ++ rest)) = true := by
  unfold noEdgeWs
  rw [Bool.and_eq_true]
  constructor
  · rw [List.head?_cons]
    decide
  · rw [show ('#' :: ' ' :: (tag ++ rest) : List Char)
        = ['#', ' '] ++ (tag ++ rest) from rfl, List.getLast?_append]
    have h2 := noEdgeWs_of_jsTrim _ (jsTrim_tag_append tag rest th tc hth hthw htl htc hr)
    unfold noEdgeWs at h2
    rw [Bool.and_eq_true] at h2
    cases hga : (tag ++ rest).getLast? with
    | none =>
      rw [List.getLast?_append, htl] at hga
      cases hrl : rest.getLast? <;> rw [hrl] at hga <;> simp [Option.or] at hga
    | some c =>
      rw [hga] at h2
      simpa [Option.or] using h2.2

theorem getLast_ne_cr (l : List Char) (h : noEdgeWs l = true) :
    l.getLast? ≠ some '\r' := by
  intro hl
  unfold noEdgeWs at h
  rw [Bool.and_eq_true] at h
  have h2 := h.2
  rw [hl] at h2
  exact absurd h2 (by decide)

theorem parseLine_summary (jsonOk : List Char → Bool) (st : ParseState) (json : List Char)
    (hjt : jsTrim json = json) (hok : jsonOk json = true) :
    parseLine jsonOk st ('#' :: ' ' :: (SUMMARY_TAG ++ json))
      = Except.ok { st with summaries := some json } := by
  have htrim : jsTrim (SUMMARY_TAG ++ json) = SUMMARY_TAG ++ json :=
    jsTrim_tag_append _ _ 'D' '=' (by decide) (by decide) (by decide) (by decide) hjt
  unfold parseLine
  rw [List.head?_cons, if_pos rfl, List.tail_cons,
    jsTrim_cons_ws _ _ (by decide), htrim,
    if_pos (isPrefixOf_append_self SUMMARY_TAG json), List.drop_left,
    if_pos hok]

theorem parseLine_seed (jsonOk : List Char → Bool) (st : ParseState) (seed : List Char)
    (hst : jsTrim seed = seed) :
    parseLine jsonOk st ('#' :: ' ' :: (SEED_TAG ++ seed))
      = Except.ok { st with seed := some seed } := by
  have htrim : jsTrim (SEED_TAG ++ seed) = SEED_TAG ++ seed :=
    jsTrim_tag_append _ _ 'D' '=' (by decide) (by decide) (by decide) (by decide) hst
  unfold parseLine
  rw [List.head?_cons, if_pos rfl, List.tail_cons,
    jsTrim_cons_ws _ _ (by decide), htrim]
  rw [if_neg (show ¬ (SUMMARY_TAG.isPrefixOf (SEED_TAG ++ seed) = true) from by
    rw [show SUMMARY_TAG.isPrefixOf (SEED_TAG ++ seed) = false from rfl]
    simp)]
  rw [if_pos (isPrefixOf_append_self SEED_TAG seed), List.drop_left, hst]

theorem parseLine_gen (jsonOk : List Char → Bool) (st : ParseState) (genAt : List Char)
    (hgt : jsTrim genAt = genAt) :
    parseLine jsonOk st ('#' :: ' ' :: ("GENERATED_AT=".data ++ genAt))
      = Except.ok st := by
  have htrim : jsTrim ("GENERATED_AT=".data ++ genAt) = "GENERATED_AT=".data ++ genAt :=
    jsTrim_tag_append _ _ 'G' '=' (by decide) (by decide) (by decide) (by decide) hgt
  unfold parseLine
  rw [List.head?_cons, if_pos rfl, List.tail_cons,
    jsTrim_cons_ws _ _ (by decide), htrim]
  rw [if_neg (show ¬ (SUMMARY_TAG.isPrefixOf ("GENERATED_AT=".data ++ genAt) = true) from by
    rw [show SUMMARY_TAG.isPrefixOf ("GENERATED_AT=".data ++ genAt) = false from rfl]
    simp)]
  rw [if_neg (show ¬ (SEED_TAG.isPrefixOf ("GENERATED_AT=".data ++ genAt) = true) from by
    rw [show SEED_TAG.isPrefixOf ("GENERATED_AT=".data ++ genAt) = false from rfl]
    simp)]

theorem header_parses : (parseCsvLine headerRow).map sanitizeHeader = CSV_COLUMNS := by
  unfold parseCsvLine headerRow
  rw [show CSV_COLUMNS.map (fun c => formatCsvValue (some c))
      = (CSV_COLUMNS.map some).map formatCsvValue from rfl]
  rw [parseCsvLine_cells _ (by decide)]
  decide

theorem parseLine_header (jsonOk : List Char → Bool) (st : ParseState)
    (hhc : st.headerColumns = none) :
    parseLine jsonOk st headerRow
      = Except.ok { st with headerColumns := some CSV_COLUMNS } := by
  unfold parseLine
  rw [if_neg (show ¬ (headerRow.head? = some '#') from by
    rw [show headerRow.head? = some '"' from rfl]
    simp), hhc]
  show (if CSV_COLUMNS.all (fun c => ((parseCsvLine headerRow).map sanitizeHeader).contains c)
      then Except.ok { st with headerColumns := some ((parseCsvLine headerRow).map sanitizeHeader) }
      else Except.error CsvError.missingColumns) = _
  rw [header_parses, if_pos (by decide)]

theorem parseCsvLine_row (e : DerivedEvent) :
    parseCsvLine (csvRow e)
      = [e.event_id.data, e.lead_id.data, intStr e.timestamp, intStr e.week_start,
         e.sdr_id.data, e.sdr_name.data, e.team.data, e.company.data, e.industry.data,
         channelName e.channel, outcomeName e.outcome,
         (e.objection.map objectionName).getD []] := by
  unfold parseCsvLine csvRow
  rw [parseCsvLine_cells _ (by simp [eventCells])]
  simp [eventCells]

theorem parseLine_row (jsonOk : List Char → Bool) (st : ParseState)
    (hhc : st.headerColumns = some CSV_COLUMNS) (e : DerivedEvent) (he : RowOk e) :
    parseLine jsonOk st (csvRow e)
      = Except.ok { st with events := st.events ++ [trimRow e] } := by
  unfold parseLine
  rw [if_neg (show ¬ ((csvRow e).head? = some '#') from by
    rw [csvRow_head]
    simp), hhc]
  show (if (parseCsvLine (csvRow e)).length = 0 then Except.ok st
      else buildRow CSV_COLUMNS (parseCsvLine (csvRow e)) >>= fun row =>
        Except.ok { headerColumns := some CSV_COLUMNS, events := st.events ++ [row],
                    summaries := st.summaries, seed := st.seed }) = _
  rw [parseCsvLine_row e]
  rw [if_neg (by simp)]
  rw [buildRow_master _ _ _ _ _ _ _ _ _ _ _ _
    he.1.2 he.2.1.2
    (by rw [jsTrim_intStr]; exact intStr_ne_nil _)
    (by rw [jsTrim_intStr]; exact intStr_ne_nil _)
    he.2.2.1.2 he.2.2.2.1.2 he.2.2.2.2.1.2 he.2.2.2.2.2.1.2 he.2.2.2.2.2.2.2]
  simp only [exc_bind_ok]
  rfl

theorem foldRows (jsonOk : List Char → Bool) (evs : List DerivedEvent)
    (hev : ∀ e ∈ evs, RowOk e) (st : ParseState)
    (hhc : st.headerColumns = some CSV_COLUMNS) :
    (evs.map csvRow).foldlM (parseLine jsonOk) st
      = Except.ok { st with events := st.events ++ evs.map trimRow } := by
  induction evs generalizing st with
  | nil =>
    rw [List.map_nil, List.foldlM_nil]
    simp [exc_pure]
  | cons e es ih =>
    rw [List.map_cons, List.foldlM_cons,
      parseLine_row jsonOk st hhc e (hev e (List.mem_cons_self _ _))]
    simp only [exc_bind_ok]
    rw [ih (fun x hx => hev x (List.mem_cons_of_mem _ hx))
      { st with events := st.events ++ [trimRow e] } (by simp [hhc])]
    simp

/-- Export then import, for any events whose string columns are free of
newlines and trim to nonempty values: the parse succeeds and returns one
row per event with every string column trimmed. -/
theorem parse_serialize (jsonOk : List Char → Bool) (json seed genAt : List Char)
    (events : List DerivedEvent)
    (hj : '\n' ∉ json) (hjt : jsTrim json = json) (hok : jsonOk json = true)
    (hs : '\n' ∉ seed) (hst : jsTrim seed = seed)
    (hg : '\n' ∉ genAt) (hgt : jsTrim genAt = genAt)
    (hev : ∀ e ∈ events, RowOk e) :
    parseDashboardCsv jsonOk (serializeDashboardCsv events json seed genAt)
      = Except.ok { events := events.map trimRow, summaries := some json,
                    seed := some seed } := by
  have hm1 : jsTrim ('#' :: ' ' :: (SUMMARY_TAG ++ json)) = '#' :: ' ' :: (SUMMARY_TAG ++ json) :=
    jsTrim_eq_self _ (noEdgeWs_meta _ _ 'D' '=' (by decide) (by decide) (by decide) (by decide) hjt)
  have hm2 : jsTrim ('#' :: ' ' :: (SEED_TAG ++ seed)) = '#' :: ' ' :: (SEED_TAG ++ seed) :=
    jsTrim_eq_self _ (noEdgeWs_meta _ _ 'D' '=' (by decide) (by decide) (by decide) (by decide) hst)
  have hm3 : jsTrim ('#' :: ' ' :: ("GENERATED_AT=".data ++ genAt))
      = '#' :: ' ' :: ("GENERATED_AT=".data ++ genAt) :=
    jsTrim_eq_self _ (noEdgeWs_meta _ _ 'G' '=' (by decide) (by decide) (by decide) (by decide) hgt)
  have hsplit : splitLines (serializeDashboardCsv events json seed genAt)
      = ('#' :: ' ' :: (SUMMARY_TAG ++ json)) :: ('#' :: ' ' :: (SEED_TAG ++ seed)) ::
        ('#' :: ' ' :: ("GENERATED_AT=".data ++ genAt)) :: headerRow :: events.map csvRow := by
    unfold serializeDashboardCsv
    apply splitLines_joinLF
    · intro p hp
      rcases List.mem_cons.mp hp with rfl | hp
      · refine ⟨?_, getLast_ne_cr _ (noEdgeWs_meta _ _ 'D' '='
          (by decide) (by decide) (by decide) (by decide) hjt)⟩
        intro hm
        rcases List.mem_cons.mp hm with h | h
        · exact absurd h (by decide)
        rcases List.mem_cons.mp h with h | h
        · exact absurd h (by decide)
        rcases List.mem_append.mp h with h | h
        · exact absurd h (by decide)
        · exact hj h
      rcases List.mem_cons.mp hp with rfl | hp
      · refine ⟨?_, getLast_ne_cr _ (noEdgeWs_meta _ _ 'D' '='
          (by decide) (by decide) (by decide) (by decide) hst)⟩
        intro hm
        rcases List.mem_cons.mp hm with h | h
        · exact absurd h (by decide)
        rcases List.mem_cons.mp h with h | h
        · exact absurd h (by decide)
        rcases List.mem_append.mp h with h | h
        · exact absurd h (by decide)
        · exact hs h
      rcases List.mem_cons.mp hp with rfl | hp
      · refine ⟨?_, getLast_ne_cr _ (noEdgeWs_meta _ _ 'G' '='
          (by decide) (by decide) (by decide) (by decide) hgt)⟩
        intro hm
        rcases List.mem_cons.mp hm with h | h
        · exact absurd h (by decide)
        rcases List.mem_cons.mp h with h | h
        · exact absurd h (by decide)
        rcases List.mem_append.mp h with h | h
        · exact absurd h (by decide)
        · exact hg h
      rcases List.mem_cons.mp hp with rfl | hp
      · exact ⟨by decide, by decide⟩
      · rcases List.mem_map.mp hp with ⟨e, he, rfl⟩
        exact ⟨csvRow_noLF e (hev e he), csvRow_not_cr e⟩
    · simp
  have hrows : (events.map csvRow).map jsTrim = events.map csvRow := by
    rw [List.map_map]
    apply List.map_congr_left
    intro e _
    exact csvRow_trim e
  have hrowsf : (events.map csvRow).filter (fun l => !l.isEmpty) = events.map csvRow := by
    rw [List.filter_eq_self]
    intro a ha
    rcases List.mem_map.mp ha with ⟨e, _, rfl⟩
    simpa using csvRow_ne_nil e
  have hlines : ((splitLines (serializeDashboardCsv events json seed genAt)).map jsTrim).filter
        (fun l => !l.isEmpty)
      = ('#' :: ' ' :: (SUMMARY_TAG ++ json)) :: ('#' :: ' ' :: (SEED_TAG ++ seed)) ::
        ('#' :: ' ' :: ("GENERATED_AT=".data ++ genAt)) :: headerRow :: events.map csvRow := by
    rw [hsplit]
    rw [List.map_cons, List.map_cons, List.map_cons, List.map_cons, hm1, hm2, hm3,
      show jsTrim headerRow = headerRow from by decide, hrows]
    rw [List.filter_cons, List.filter_cons, List.filter_cons, List.filter_cons]
    simp only [List.isEmpty_cons, Bool.not_false, if_true, ite_true]
    rw [show (!headerRow.isEmpty) = true from by decide, if_pos rfl, hrowsf]
  unfold parseDashboardCsv
  rw [hlines]
  rw [if_neg (by simp)]
  rw [List.foldlM_cons, parseLine_summary jsonOk _ json hjt hok]
  simp only [exc_bind_ok]
  rw [List.foldlM_cons, parseLine_seed jsonOk _ seed hst]
  simp only [exc_bind_ok]
  rw [List.foldlM_cons, parseLine_gen jsonOk _ genAt hgt]
  simp only [exc_bind_ok]
  rw [List.foldlM_cons, parseLine_header jsonOk _ rfl]
  simp only [exc_bind_ok]
  rw [foldRows jsonOk events hev _ rfl]
  simp only [exc_bind_ok]
  rfl

/-- A string column value the round trip preserves exactly: trim-stable,
newline-free, nonempty. -/
def CleanField (v : List Char) : Prop := jsTrim v = v ∧ '\n' ∉ v ∧ v ≠ []

instance (v : List Char) : Decidable (CleanField v) := by
  unfold CleanField
  infer_instance

def GoodEvent (e : DerivedEvent) : Prop :=
  CleanField e.event_id.data ∧ CleanField e.lead_id.data ∧ CleanField e.sdr_id.data ∧
  CleanField e.sdr_name.data ∧ CleanField e.team.data ∧ CleanField e.company.data ∧
  CleanField e.industry.data

instance (e : DerivedEvent) : Decidable (GoodEvent e) := by
  unfold GoodEvent
  infer_instance

/-- The parsed row carrying exactly the serialized column values: strings
as they were, numbers as their decimal renderings, enums restored. -/
def expectedRow (e : DerivedEvent) : RawRow :=
  { event_id := e.event_id.data, lead_id := e.lead_id.data,
    timestamp := intStr e.timestamp, week_start := intStr e.week_start,
    sdr_id := e.sdr_id.data, sdr_name := e.sdr_name.data, team := e.team.data,
    company := e.company.data, industry := e.industry.data, channel := e.channel,
    outcome := e.outcome, objection := e.objection }

theorem rowOk_of_goodEvent (e : DerivedEvent) (h : GoodEvent e) : RowOk e := by
  obtain ⟨h1, h2, h3, h4, h5, h6, h7⟩ := h
  refine ⟨⟨h1.2.1, ?_⟩, ⟨h2.2.1, ?_⟩, ⟨h3.2.1, ?_⟩, ⟨h4.2.1, ?_⟩, ⟨h5.2.1, ?_⟩,
    ⟨h6.2.1, ?_⟩, ⟨h7.2.1, ?_⟩⟩
  · rw [h1.1]; exact h1.2.2
  · rw [h2.1]; exact h2.2.2
  · rw [h3.1]; exact h3.2.2
  · rw [h4.1]; exact h4.2.2
  · rw [h5.1]; exact h5.2.2
  · rw [h6.1]; exact h6.2.2
  · rw [h7.1]; exact h7.2.2

theorem trimRow_eq (e : DerivedEvent) (h : GoodEvent e) : trimRow e = expectedRow e := by
  unfold trimRow expectedRow
  rw [h.1.1, h.2.1.1, h.2.2.1.1, h.2.2.2.1.1, h.2.2.2.2.1.1, h.2.2.2.2.2.1.1,
    h.2.2.2.2.2.2.1, jsTrim_intStr, jsTrim_intStr]

/-- C8 amended round trip. -/
theorem csv_round_trip (jsonOk : List Char → Bool) (json seed genAt : List Char)
    (events : List DerivedEvent)
    (hj : '\n' ∉ json) (hjt : jsTrim json = json) (hok : jsonOk json = true)
    (hs : '\n' ∉ seed) (hst : jsTrim seed = seed)
    (hg : '\n' ∉ genAt) (hgt : jsTrim genAt = genAt)
    (hev : ∀ e ∈ events, GoodEvent e) :
    parseDashboardCsv jsonOk (serializeDashboardCsv events json seed genAt)
      = Except.ok { events := events.map expectedRow, summaries := some json,
                    seed := some seed } := by
  rw [parse_serialize jsonOk json seed genAt events hj hjt hok hs hst hg hgt
    (fun e he => rowOk_of_goodEvent e (hev e he))]
  rw [List.map_congr_left (fun e he => trimRow_eq e (hev e he))]

def sampleEvent : DerivedEvent :=
  { event_id := "evt_00001", lead_id := "lead_100000", timestamp := 1704672000000,
    week_start := 1704672000000, sdr_id := "sdr_1", sdr_name := "Ann Lee",
    team := "Revenue Rockets", company := "Acme Corp", industry := "SaaS",
    channel := Channel.call, outcome := Outcome.qualified,
    objection := some Objection.budget,
    is_connected := true, is_conversation := true, is_meeting_booked := true,
    is_meeting_held := true, is_qualified := true, is_no_show := false,
    is_dial := true, is_first_contact := true, time_to_meeting_days := none }

theorem csv_round_trip_witness :
    parseDashboardCsv (fun _ => true)
        (serializeDashboardCsv [sampleEvent] "42".data "7".data "t0".data)
      = Except.ok { events := [sampleEvent].map expectedRow,
                    summaries := some "42".data, seed := some "7".data } :=
  csv_round_trip (fun _ => true) "42".data "7".data "t0".data [sampleEvent]
    (by decide) (by decide) rfl (by decide) (by decide) (by decide) (by decide)
    (by decide)

def paddedEvent : DerivedEvent :=
  { event_id := "evt_00002", lead_id := "lead_100001", timestamp := 1704672000000,
    week_start := 1704672000000, sdr_id := "sdr_2", sdr_name := "Bob Kim",
    team := "Demand Drivers", company := "Acme Corp ", industry := "SaaS",
    channel := Channel.email, outcome := Outcome.connected, objection := none,
    is_connected := true, is_conversation := false, is_meeting_booked := false,
    is_meeting_held := false, is_qualified := false, is_no_show := false,
    is_dial := false, is_first_contact := true, time_to_meeting_days := none }

/-- The row the importer returns for paddedEvent: the trailing space of
the company cell is gone. -/
def paddedRow : RawRow :=
  { event_id := "evt_00002".data, lead_id := "lead_100001".data,
    timestamp := "1704672000000".data, week_start := "1704672000000".data,
    sdr_id := "sdr_2".data, sdr_name := "Bob Kim".data,
    team := "Demand Drivers".data, company := "Acme Corp".data,
    industry := "SaaS".data, channel := Channel.email,
    outcome := Outcome.connected, objection := none }

/-- Counterexample to C8 as stated: a company cell with a trailing space
is trimmed by the importer, so the parsed row differs from the original
column value. -/
theorem csv_company_trimmed :
    parseDashboardCsv (fun _ => true)
        (serializeDashboardCsv [paddedEvent] "42".data "7".data "t0".data)
      = Except.ok { events := [paddedRow], summaries := some "42".data,
                    seed := some "7".data } ∧
      paddedEvent.company.data ≠ "Acme Corp".data := by
  constructor
  · rw [parse_serialize (fun _ => true) "42".data "7".data "t0".data [paddedEvent]
      (by decide) (by decide) rfl (by decide) (by decide) (by decide) (by decide)
      (by decide)]
    exact congrArg Except.ok (by decide)
  · decide

end Dashboard
